import Mathlib

/-!
# Mock-Webpage storefront: cart and catalog operations of `script.js`

A shallow embedding of the data-management core of `src/script.js`
(classes `ProductException`, `Product`, `ShoppingCart`, `ProductManager`).

Modelling conventions.

* JavaScript strings are Lean `String`s; character-level builtins (`split`,
  `trim`, `includes`) work on the character list. The Unicode case mapping
  `toLowerCase` is a parameter: what is proved holds for every case mapping.
* Cart quantities are integers (`Int`), prices are exact rationals (`ℚ`); a
  numeric result that may be `NaN` is an `Option ℚ` whose `none` is `NaN`.
* A property that evaluates to `undefined` is `none`.
* A method that mutates `this` and may `throw` is a function from the state
  before the call to the pair (outcome, state after the call); a `throw`
  leaves the state as it was at the `throw` statement.
* `localStorage` holds JSON documents; `JSON.stringify` followed by
  `JSON.parse` is the identity on the value trees used here (arrays of flat
  objects of strings and finite numbers), so the store keeps the value tree.
* `updateCartUI` only writes to the DOM; the DOM is outside the model.
* An element of the product array is a `Product` value with a flag that tells
  a class instance (getters and setters present) from a plain object returned
  by `JSON.parse`; an object literal handed to `createFromObject` is a
  `PlainObject`.
* The result of a call of `crypto.randomUUID()` is a parameter of the method
  that may make the call.
* The price setter takes a primitive value (`undefined`, `null`, a boolean, a
  number or a string); `Number(value)` and `parseFloat(value)` follow the
  ECMAScript grammar of numeric strings, with exact values.
-/

namespace MockWebpage

/-! ## Exceptions -/

/-- Class `ProductException` (script.js 2-7); `name` is the constant
"ProductException". -/
structure ProductException where
  error : String
  deriving DecidableEq, Repr

/-- What a call can raise: a `ProductException` thrown by the program, or the
`TypeError` raised by the runtime when a method is called on `undefined`. -/
inductive JSError where
  | productException (e : ProductException)
  | typeError
  deriving DecidableEq, Repr

/-! ## JSON documents and `localStorage` -/

/-- A JSON leaf value: a finite number or a string. -/
inductive JsonPrim where
  | num (q : ℚ)
  | str (s : String)
  deriving DecidableEq

/-- A flat JSON object: its own enumerable properties, in order. -/
abbrev JsonObject := List (String × JsonPrim)

/-- A JSON array of flat objects. -/
abbrev JsonArray := List JsonObject

/-- The browser key-value store; each key holds one JSON document. -/
structure LocalStorage where
  entries : List (String × JsonArray)
  deriving DecidableEq

/-- Call `localStorage.getItem(key)`: `none` is `null`. -/
def LocalStorage.getItem (s : LocalStorage) (key : String) : Option JsonArray :=
  (s.entries.find? (fun kv => kv.1 == key)).map Prod.snd

/-- Call `localStorage.setItem(key, value)`. -/
def LocalStorage.setItem (s : LocalStorage) (key : String) (value : JsonArray) :
    LocalStorage :=
  ⟨(key, value) :: s.entries.filter (fun kv => !(kv.1 == key))⟩

/-! ## Array helpers -/

/-- Builtin `Array.prototype.findIndex`: position of the first element satisfying
`pred`; `none` is the `-1` result. -/
def findIndex {α : Type} (pred : α → Bool) : List α → Option Nat
  | [] => none
  | x :: xs => if pred x then some 0 else (findIndex pred xs).map (· + 1)

/-- Assignment through a reference to the element at position `i`:
`arr[i] = f(arr[i])`; no effect when `i` is out of range. -/
def updateAt {α : Type} (f : α → α) : Nat → List α → List α
  | _, [] => []
  | 0, x :: xs => f x :: xs
  | i + 1, x :: xs => x :: updateAt f i xs

/-! ## Shopping cart (script.js 113-201) -/

/-- A cart entry `{ productUuid, amount }`. -/
structure CartItem where
  productUuid : String
  amount : Int
  deriving DecidableEq, Repr

/-- State touched by `ShoppingCart` methods: `this._items` and the store. -/
structure ShoppingCart where
  _items : List CartItem
  localStorage : LocalStorage
  deriving DecidableEq

/-- Value of `JSON.stringify(this._items)` as a value tree. -/
def stringifyItems (items : List CartItem) : JsonArray :=
  items.map fun item =>
    [("productUuid", JsonPrim.str item.productUuid), ("amount", JsonPrim.num item.amount)]

/-- Method `_saveCart` (script.js 119-121). -/
def ShoppingCart._saveCart (c : ShoppingCart) : ShoppingCart :=
  { c with localStorage := c.localStorage.setItem "cart" (stringifyItems c._items) }

/-- Method `addItem(productUuid, amount)` (script.js 124-142). `find` returns a
reference to the first entry with that id, and `+=` mutates it in place. -/
def ShoppingCart.addItem (c : ShoppingCart) (productUuid : String) (amount : Int) :
    Except ProductException Unit × ShoppingCart :=
  if amount ≤ 0 then
    (.error ⟨"La cantidad debe ser mayor a 0"⟩, c)
  else
    let c1 : ShoppingCart :=
      match findIndex (fun item => item.productUuid == productUuid) c._items with
      | some i =>
        { c with _items :=
            updateAt (fun existingItem =>
              { existingItem with amount := existingItem.amount + amount }) i c._items }
      | none =>
        { c with _items := c._items ++ [{ productUuid := productUuid, amount := amount }] }
    (.ok (), c1._saveCart)

/-- Method `updateItem(productUuid, newAmount)` (script.js 145-164). -/
def ShoppingCart.updateItem (c : ShoppingCart) (productUuid : String) (newAmount : Int) :
    Except ProductException Unit × ShoppingCart :=
  if newAmount < 0 then
    (.error ⟨"La cantidad no puede ser negativa"⟩, c)
  else
    match findIndex (fun item => item.productUuid == productUuid) c._items with
    | none => (.error ⟨"Producto no encontrado en el carrito"⟩, c)
    | some itemIndex =>
      let c1 : ShoppingCart :=
        if newAmount = 0 then
          { c with _items := c._items.eraseIdx itemIndex }
        else
          { c with _items :=
              updateAt (fun item => { item with amount := newAmount }) itemIndex c._items }
      (.ok (), c1._saveCart)

/-- Method `removeItem(productUuid)` (script.js 167-171). -/
def ShoppingCart.removeItem (c : ShoppingCart) (productUuid : String) :
    Except ProductException Unit × ShoppingCart :=
  let c1 : ShoppingCart :=
    { c with _items := c._items.filter (fun item => !(item.productUuid == productUuid)) }
  (.ok (), c1._saveCart)

/-- The empty cart over an empty store: what the constructor builds when
`localStorage` has no `cart` key. -/
def ShoppingCart.empty : ShoppingCart := ⟨[], ⟨[]⟩⟩

/-- One call on the cart's mutating interface. -/
inductive CartOp where
  | addItem (productUuid : String) (amount : Int)
  | updateItem (productUuid : String) (newAmount : Int)
  | removeItem (productUuid : String)
  deriving DecidableEq, Repr

/-- Perform one call; a raised exception is caught by the caller and the
cart carries on from the state the call left. -/
def ShoppingCart.step (c : ShoppingCart) : CartOp → ShoppingCart
  | .addItem p a => (c.addItem p a).2
  | .updateItem p n => (c.updateItem p n).2
  | .removeItem p => (c.removeItem p).2

/-- Perform a finite sequence of calls, left to right. -/
def ShoppingCart.run (c : ShoppingCart) (ops : List CartOp) : ShoppingCart :=
  ops.foldl ShoppingCart.step c

/-- The cart has an entry for product id `p`. -/
def hasEntry (items : List CartItem) (p : String) : Prop :=
  ∃ item ∈ items, item.productUuid = p

/-- At most one entry per product id. -/
def uniqueIds (items : List CartItem) : Prop :=
  (items.map CartItem.productUuid).Nodup

/-- Every stored quantity is positive. -/
def positiveAmounts (items : List CartItem) : Prop :=
  ∀ item ∈ items, 0 < item.amount

/-! ## JavaScript numbers that may be `NaN` -/

/-- Sum `x + y` on numbers; `none` is `NaN`, which absorbs. -/
def jsAdd (x y : Option ℚ) : Option ℚ :=
  match x, y with
  | some a, some b => some (a + b)
  | _, _ => none

/-- Product `x * y` on numbers; `none` is `NaN` (also the numeric value of
`undefined`), which absorbs. -/
def jsMul (x y : Option ℚ) : Option ℚ :=
  match x, y with
  | some a, some b => some (a * b)
  | _, _ => none

/-! ## Product (script.js 10-110) -/

/-- An element of a product array. The underscore fields are the object's own
properties, as assigned by the constructor (script.js 11-18). `hasPrototype`
tells whether the object was built by `new Product(...)`, so that the getters
of the class exist on it, or is a plain object as returned by `JSON.parse`
(script.js 209), on which `uuid`, `name`, ... are not defined. -/
structure Product where
  hasPrototype : Bool
  _uuid : String
  _name : Option String
  _description : Option String
  _price : Option ℚ
  _image : Option String
  _category : Option String
  deriving DecidableEq

/-- Property `p.uuid` (getter, script.js 21-23). -/
def Product.uuid (p : Product) : Option String :=
  if p.hasPrototype then some p._uuid else none

/-- Property `p.name` (getter, script.js 25-27). -/
def Product.name (p : Product) : Option String :=
  if p.hasPrototype then p._name else none

/-- Property `p.description` (getter, script.js 36-38). -/
def Product.description (p : Product) : Option String :=
  if p.hasPrototype then p._description else none

/-- Property `p.price` (getter, script.js 47-49). -/
def Product.price (p : Product) : Option ℚ :=
  if p.hasPrototype then p._price else none

/-- Property `p.image` (getter, script.js 58-60). -/
def Product.image (p : Product) : Option String :=
  if p.hasPrototype then p._image else none

/-- Property `p.category` (getter, script.js 69-71). -/
def Product.category (p : Product) : Option String :=
  if p.hasPrototype then p._category else none

/-! ## Cart total (script.js 174-182) -/

/-- Method `calculateTotal(products)`: the `reduce` over `this._items` starting from
`0`; the method assigns nothing, so the cart is returned as it was. -/
def ShoppingCart.calculateTotal (c : ShoppingCart) (products : List Product) :
    Option ℚ × ShoppingCart :=
  (c._items.foldl (fun total item =>
      match products.find? (fun p => p.uuid == some item.productUuid) with
      | some product => jsAdd total (jsMul product.price (some (item.amount : ℚ)))
      | none => total) (some 0),
   c)

/-- Reference price of product id `uuid` in a product list: `none` when no
product of the list has that id, otherwise the price of the product that has
it (`NaN` when that product has no price). -/
def priceOf (products : List Product) (uuid : String) : Option (Option ℚ) :=
  (products.find? (fun p => p.uuid == some uuid)).map Product.price

/-- Reference contribution of one cart entry: price times quantity, and `0`
for an entry whose product id occurs nowhere in the list. -/
def contribution (products : List Product) (item : CartItem) : Option ℚ :=
  match priceOf products item.productUuid with
  | some price => jsMul price (some (item.amount : ℚ))
  | none => some 0

/-- Reference total: the sum of the contributions of all entries. -/
def referenceTotal (items : List CartItem) (products : List Product) : Option ℚ :=
  (items.map (contribution products)).foldr jsAdd (some 0)

/-! ## String builtins -/

/-- Characters removed by `String.prototype.trim`: ECMAScript WhiteSpace and
LineTerminator code points. -/
def isTrimmed (ch : Char) : Bool :=
  let n := ch.toNat
  n = 0x09 || n = 0x0A || n = 0x0B || n = 0x0C || n = 0x0D || n = 0x20 || n = 0xA0 ||
  n = 0x1680 || (0x2000 ≤ n && n ≤ 0x200A) || n = 0x2028 || n = 0x2029 || n = 0x202F ||
  n = 0x205F || n = 0x3000 || n = 0xFEFF

/-- Builtin `s.trim()`. -/
def trim (s : List Char) : List Char :=
  ((s.dropWhile isTrimmed).reverse.dropWhile isTrimmed).reverse

/-- A case mapping used in the examples: it lowers the ASCII letters and keeps
every other character. The builtin `String.prototype.toLowerCase` is a
parameter of the definitions that call it. -/
def lowerAscii (s : List Char) : List Char :=
  s.map Char.toLower

/-- Builtin `s.includes(search)`: `search` occurs in `s` as a contiguous run. -/
def includes (s search : List Char) : Bool :=
  s.tails.any (fun t => search.isPrefixOf t)

/-- Builtin `s.split(sep)` for a one-character separator. -/
def split (sep : Char) : List Char → List (List Char)
  | [] => [[]]
  | ch :: rest =>
    if ch = sep then [] :: split sep rest
    else
      match split sep rest with
      | [] => [[ch]]
      | part :: parts => (ch :: part) :: parts

/-! ## Product manager queries (script.js 207-323) -/

/-- State touched by `ProductManager` methods: `this._products` and the
store. -/
structure ProductManager where
  _products : List Product
  localStorage : LocalStorage
  deriving DecidableEq

/-- Expression `!part || field.toLowerCase().includes(part.toLowerCase())`
(script.js 304-307): `part` is `none` when `undefined`; the empty string and
`undefined` are falsy; calling `toLowerCase` on an `undefined` field raises
`TypeError`. The builtin `toLowerCase` of the host is a parameter. -/
def partMatch (toLowerCase : List Char → List Char) (part : Option (List Char))
    (field : Option String) : Except JSError Bool :=
  match part with
  | none => .ok true
  | some [] => .ok true
  | some (ch :: rest) =>
    match field with
    | none => .error .typeError
    | some text => .ok (includes (toLowerCase text.data) (toLowerCase (ch :: rest)))

/-- The `filter` callback of `findProduct` (script.js 303-310): both matches
are evaluated before they are combined. -/
def productMatches (toLowerCase : List Char → List Char)
    (categoryPart titlePart : Option (List Char)) (product : Product) :
    Except JSError Bool :=
  match partMatch toLowerCase categoryPart product.category with
  | .error e => .error e
  | .ok categoryMatch =>
    match partMatch toLowerCase titlePart product.name with
    | .error e => .error e
    | .ok titleMatch => .ok (categoryMatch && titleMatch)

/-- Builtin `Array.prototype.filter` with a callback that may raise: the first
exception ends the call. -/
def filterE {α : Type} (f : α → Except JSError Bool) : List α → Except JSError (List α)
  | [] => .ok []
  | x :: xs =>
    match f x with
    | .error e => .error e
    | .ok keep =>
      match filterE f xs with
      | .error e => .error e
      | .ok rest => .ok (if keep then x :: rest else rest)

/-- Method `findProduct(query)` (script.js 298-311); `query` is `none` when
absent, `toLowerCase` is the builtin of the host. -/
def ProductManager.findProduct (m : ProductManager)
    (toLowerCase : List Char → List Char) (query : Option String) :
    Except JSError (List Product) :=
  match query with
  | none => .ok m._products
  | some q =>
    if q.data = [] then .ok m._products
    else
      let parts := (split ':' q.data).map trim
      let categoryPart := parts[0]?
      let titlePart := parts[1]?
      filterE (productMatches toLowerCase categoryPart titlePart) m._products

/-- Builtin `arr.slice(start, end)` with integer arguments: a negative index counts
from the end of the array, and both are clamped to `0..length`. -/
def slice {α : Type} (arr : List α) (start stop : Int) : List α :=
  let len : Int := arr.length
  let k : Int := if start < 0 then max (len + start) 0 else min start len
  let final : Int := if stop < 0 then max (len + stop) 0 else min stop len
  (arr.drop k.toNat).take (final - k).toNat

/-- The object returned by `getPaginatedProducts`. `totalPages` is `none`
when `Math.ceil(length / itemsPerPage)` is not a finite number
(`itemsPerPage` is `0`). -/
structure PaginatedProducts where
  products : List Product
  totalPages : Option Int
  currentPage : Int
  deriving DecidableEq

/-- Method `getPaginatedProducts(page = 1, itemsPerPage = 8)` (script.js 314-322);
an argument is `none` when it is left out. -/
def ProductManager.getPaginatedProducts (m : ProductManager)
    (page : Option Int) (itemsPerPage : Option Int) : PaginatedProducts :=
  let page := page.getD 1
  let itemsPerPage := itemsPerPage.getD 8
  let startIndex := (page - 1) * itemsPerPage
  let endIndex := startIndex + itemsPerPage
  { products := slice m._products startIndex endIndex,
    totalPages :=
      if itemsPerPage = 0 then none
      else some ⌈((m._products.length : ℚ)) / (itemsPerPage : ℚ)⌉,
    currentPage := page }

/-- A string contains a filter, ignoring case: the lowered filter occurs in
the lowered string. -/
def containsIgnoreCase (toLowerCase : List Char → List Char) (text filter : List Char) :
    Prop :=
  toLowerCase filter <:+: toLowerCase text

instance (toLowerCase : List Char → List Char) (text filter : List Char) :
    Decidable (containsIgnoreCase toLowerCase text filter) := by
  unfold containsIgnoreCase; infer_instance

/-- A field contains a filter, ignoring case; a product without the field
contains nothing. -/
def fieldContains (toLowerCase : List Char → List Char) (field : Option String)
    (filter : List Char) : Bool :=
  match field with
  | none => false
  | some text => decide (containsIgnoreCase toLowerCase text.data filter)

/-- The search criterion of the specification: the category filter is empty
or the category contains it, and the name filter is empty or the name
contains it, both ignoring case. -/
def matchesFilters (toLowerCase : List Char → List Char)
    (categoryFilter nameFilter : List Char) (p : Product) : Bool :=
  (categoryFilter.isEmpty || fieldContains toLowerCase p.category categoryFilter) &&
  (nameFilter.isEmpty || fieldContains toLowerCase p.name nameFilter)

/-- Every product of the list exposes the fields that a non-empty filter
reads: a category when the category filter is not empty, a name when the
name filter is not empty. -/
def fieldsPresent (categoryFilter nameFilter : List Char) (products : List Product) : Prop :=
  ∀ p ∈ products,
    (categoryFilter ≠ [] → p.category.isSome) ∧ (nameFilter ≠ [] → p.name.isSome)

/-- Reference contribution as an exact rational, for an entry whose product
has a price: price times quantity, and `0` for every other entry. -/
def exactContribution (products : List Product) (item : CartItem) : ℚ :=
  match priceOf products item.productUuid with
  | some (some price) => price * (item.amount : ℚ)
  | _ => 0

/-! ## Loosely typed records and `createFromObject` (script.js 90-109) -/

/-- An object without the getters of the class, such as an object literal:
the keys `uuid` .. `category` that `createFromObject` reads and the keys
`_uuid` .. `_category` that the constructor writes. A key is `none` when the
object does not have it, and then reads as `undefined`. -/
structure PlainObject where
  uuid : Option String
  name : Option String
  description : Option String
  price : Option ℚ
  image : Option String
  category : Option String
  _uuid : Option String
  _name : Option String
  _description : Option String
  _price : Option ℚ
  _image : Option String
  _category : Option String
  deriving DecidableEq

/-- The object literal `{}`. -/
def PlainObject.empty : PlainObject :=
  ⟨none, none, none, none, none, none, none, none, none, none, none, none⟩

/-- A record that carries only the recognised keys, as callers of
`createProduct` and `updateProduct` write it. -/
def record (uuid name description : Option String) (price : Option ℚ)
    (image category : Option String) : PlainObject :=
  ⟨uuid, name, description, price, image, category, none, none, none, none, none, none⟩

/-- Own enumerable properties of an element of the product array, which is
what `{...product}` copies: the fields written by the constructor. The
getters live on the prototype and are not copied. -/
def Product.ownProperties (p : Product) : PlainObject :=
  ⟨none, none, none, none, none, none,
   some p._uuid, p._name, p._description, p._price, p._image, p._category⟩

/-- Own properties of `this._products[index]`; spreading `undefined` copies
nothing. -/
def ownPropertiesAt (element : Option Product) : PlainObject :=
  match element with
  | some p => p.ownProperties
  | none => PlainObject.empty

/-- Object spread `{...a, ...b}`: a key of `b` overrides the same key of
`a`. -/
def spread (a b : PlainObject) : PlainObject :=
  ⟨b.uuid <|> a.uuid, b.name <|> a.name, b.description <|> a.description,
   b.price <|> a.price, b.image <|> a.image, b.category <|> a.category,
   b._uuid <|> a._uuid, b._name <|> a._name, b._description <|> a._description,
   b._price <|> a._price, b._image <|> a._image, b._category <|> a._category⟩

/-- Value kept by `if (obj.key) newObj.key = obj.key` for a string: the empty
string and `undefined` are falsy. -/
def truthyText (value : Option String) : Option String :=
  match value with
  | some text => if text = "" then none else some text
  | none => none

/-- Value kept by `if (obj.price) newObj.price = obj.price`: `0` and
`undefined` are falsy. -/
def truthyNumber (value : Option ℚ) : Option ℚ :=
  match value with
  | some x => if x = 0 then none else some x
  | none => none

/-- Static method `Product.createFromObject(obj)` (script.js 90-109);
`randomUUID` is what `crypto.randomUUID()` returns if it is called. -/
def Product.createFromObject (obj : PlainObject) (randomUUID : String) : Product :=
  { hasPrototype := true
    _uuid := (truthyText obj.uuid).getD randomUUID
    _name := truthyText obj.name
    _description := truthyText obj.description
    _price := truthyNumber obj.price
    _image := truthyText obj.image
    _category := truthyText obj.category }

/-! ## Primitive values and their numeric coercions -/

/-- A JavaScript number: `NaN`, an infinity, or a finite value taken
exactly. -/
inductive JSNumber where
  | nan
  | infinity (negative : Bool)
  | finite (q : ℚ)
  deriving DecidableEq

/-- A primitive JavaScript value. -/
inductive JSValue where
  | undefined
  | null
  | boolean (b : Bool)
  | number (n : JSNumber)
  | string (s : String)
  deriving DecidableEq

/-- The finite value of a number, `none` for `NaN` and the infinities. -/
def JSNumber.toFinite : JSNumber → Option ℚ
  | .finite q => some q
  | _ => none

/-- Unary minus on numbers. -/
def JSNumber.negate : JSNumber → JSNumber
  | .nan => .nan
  | .infinity negative => .infinity (!negative)
  | .finite q => .finite (-q)

/-- Comparison `n <= 0`: false for `NaN`. -/
def notAbove0 : JSNumber → Bool
  | .nan => false
  | .infinity negative => negative
  | .finite q => q ≤ 0

/-- Value of a character as a digit of the base (at most 16), `none` when it
is not one. -/
def digitOfBase (base : Nat) (ch : Char) : Option Nat :=
  let n := ch.toNat
  let value : Option Nat :=
    if 48 ≤ n ∧ n ≤ 57 then some (n - 48)
    else if 97 ≤ n ∧ n ≤ 102 then some (n - 87)
    else if 65 ≤ n ∧ n ≤ 70 then some (n - 55)
    else none
  match value with
  | some d => if d < base then some d else none
  | none => none

/-- A decimal digit `0` .. `9`. -/
def isDecimalDigit (ch : Char) : Bool :=
  (digitOfBase 10 ch).isSome

/-- Number written by a list of digit values, most significant first. -/
def natOfDigits (base : Nat) (digits : List Nat) : Nat :=
  digits.foldl (fun acc d => acc * base + d) 0

/-- Number written by a list of decimal digit characters. -/
def decimalValue (digits : List Char) : Nat :=
  natOfDigits 10 (digits.filterMap (digitOfBase 10))

/-- A whole string of digits of the base, as `0x`, `0o` and `0b` literals
need after their marker: `none` when it is empty or holds another
character. -/
def parseRadix (base : Nat) : List Char → Option (List Nat)
  | [] => none
  | [ch] => (digitOfBase base ch).map fun d => [d]
  | ch :: rest =>
    match digitOfBase base ch, parseRadix base rest with
    | some d, some ds => some (d :: ds)
    | _, _ => none

/-- Leading ExponentPart of a decimal literal: `e` or `E`, an optional sign
and at least one digit; gives the exponent and what follows it. -/
def parseExponent (l : List Char) : Option (Int × List Char) :=
  match l with
  | [] => none
  | ch :: rest =>
    if ch = 'e' ∨ ch = 'E' then
      let signed : Bool × List Char :=
        match rest with
        | '+' :: r => (false, r)
        | '-' :: r => (true, r)
        | r => (false, r)
      let digits := signed.2.takeWhile isDecimalDigit
      let tail := signed.2.dropWhile isDecimalDigit
      if digits = [] then none
      else some (if signed.1 then -(decimalValue digits : Int) else (decimalValue digits : Int),
        tail)
    else none

/-- Longest leading StrUnsignedDecimalLiteral: `Infinity`, or digits with an
optional fraction and an optional exponent; gives its value and what follows
it, `none` when no such literal starts the list. -/
def parseUnsignedDecimal (l : List Char) : Option (JSNumber × List Char) :=
  if "Infinity".data.isPrefixOf l then some (.infinity false, l.drop 8)
  else
    let intDigits := l.takeWhile isDecimalDigit
    let afterInt := l.dropWhile isDecimalDigit
    let mantissa : Option (ℚ × List Char) :=
      match afterInt with
      | '.' :: afterDot =>
        let fracDigits := afterDot.takeWhile isDecimalDigit
        if intDigits = [] ∧ fracDigits = [] then none
        else some ((decimalValue intDigits : ℚ)
            + (decimalValue fracDigits : ℚ) / (10 : ℚ) ^ fracDigits.length,
          afterDot.dropWhile isDecimalDigit)
      | _ => if intDigits = [] then none else some ((decimalValue intDigits : ℚ), afterInt)
    match mantissa with
    | none => none
    | some (m, rest) =>
      match parseExponent rest with
      | some (e, tail) => some (.finite (m * (10 : ℚ) ^ e), tail)
      | none => some (.finite m, rest)

/-- Longest leading StrDecimalLiteral: an optional sign and an unsigned
decimal literal. -/
def parseDecimal (l : List Char) : Option (JSNumber × List Char) :=
  match l with
  | '+' :: rest => parseUnsignedDecimal rest
  | '-' :: rest => (parseUnsignedDecimal rest).map fun r => (r.1.negate, r.2)
  | _ => parseUnsignedDecimal l

/-- Builtin `parseFloat(string)`: leading white space is skipped and the
longest leading decimal literal is the result, `NaN` when there is none. -/
def parseFloatString (s : List Char) : JSNumber :=
  match parseDecimal (s.dropWhile isTrimmed) with
  | some r => r.1
  | none => .nan

/-- A trimmed string read as a whole decimal literal, `NaN` when something is
left over. -/
def wholeDecimal (t : List Char) : JSNumber :=
  match parseDecimal t with
  | some (n, []) => n
  | _ => .nan

/-- A literal of base 16, 8 or 2 after its marker. -/
def wholeRadix (base : Nat) (digits : List Char) : JSNumber :=
  match parseRadix base digits with
  | some ds => .finite (natOfDigits base ds : ℚ)
  | none => .nan

/-- Conversion `Number(string)`: the trimmed string is empty (`0`), a
literal `0x..`, `0o..`, `0b..`, or a whole decimal literal; anything else is
`NaN`. -/
def stringToNumber (s : List Char) : JSNumber :=
  match trim s with
  | [] => .finite 0
  | '0' :: marker :: digits =>
    if marker = 'x' ∨ marker = 'X' then wholeRadix 16 digits
    else if marker = 'o' ∨ marker = 'O' then wholeRadix 8 digits
    else if marker = 'b' ∨ marker = 'B' then wholeRadix 2 digits
    else wholeDecimal ('0' :: marker :: digits)
  | t => wholeDecimal t

/-- Conversion `Number(value)` of a primitive value, as `isNaN` and `<=`
apply it. -/
def toNumber : JSValue → JSNumber
  | .undefined => .nan
  | .null => .finite 0
  | .boolean b => .finite (if b then 1 else 0)
  | .number n => n
  | .string s => stringToNumber s.data

/-- Builtin `isNaN(value)`. -/
def isNaN (value : JSValue) : Bool :=
  toNumber value = .nan

/-- Builtin `parseFloat(value)`: the value is converted to a string and that
string is parsed; the string of a number parses back to the number. -/
def parseFloat : JSValue → JSNumber
  | .undefined => parseFloatString "undefined".data
  | .null => parseFloatString "null".data
  | .boolean b => parseFloatString (if b then "true".data else "false".data)
  | .number n => n
  | .string s => parseFloatString s.data

/-! ## Product setters (script.js 29-78) -/

/-- Body of the four text setters: `!value || value.trim() === ""`; `value`
is a string or `none` for `undefined`. -/
def invalidText (value : Option String) : Bool :=
  match value with
  | none => true
  | some text => text = "" || trim text.data = []

/-- Setter `set name(value)` (script.js 29-34). -/
def Product.setName (p : Product) (value : Option String) :
    Except ProductException Unit × Product :=
  if invalidText value then (.error ⟨"El nombre no puede estar vacío"⟩, p)
  else (.ok (), { p with _name := value })

/-- Setter `set description(value)` (script.js 40-45). -/
def Product.setDescription (p : Product) (value : Option String) :
    Except ProductException Unit × Product :=
  if invalidText value then (.error ⟨"La descripción no puede estar vacía"⟩, p)
  else (.ok (), { p with _description := value })

/-- Setter `set price(value)` (script.js 51-56) on a primitive value:
`isNaN(value) || value <= 0` raises, otherwise `parseFloat(value)` is stored.
The field `_price` records a finite stored number; a stored `NaN` or infinity
is recorded as `none`, which every reader of the price in this file treats as
not a number. -/
def Product.setPrice (p : Product) (value : JSValue) :
    Except ProductException Unit × Product :=
  if isNaN value || notAbove0 (toNumber value) then
    (.error ⟨"El precio debe ser un número positivo"⟩, p)
  else (.ok (), { p with _price := (parseFloat value).toFinite })

/-- Setter `set image(value)` (script.js 62-67). -/
def Product.setImage (p : Product) (value : Option String) :
    Except ProductException Unit × Product :=
  if invalidText value then (.error ⟨"La URL de la imagen no puede estar vacía"⟩, p)
  else (.ok (), { p with _image := value })

/-- Setter `set category(value)` (script.js 73-78). -/
def Product.setCategory (p : Product) (value : Option String) :
    Except ProductException Unit × Product :=
  if invalidText value then (.error ⟨"La categoría no puede estar vacía"⟩, p)
  else (.ok (), { p with _category := value })

/-! ## Product manager mutators and storage (script.js 208-295) -/

/-- Value of `JSON.stringify(product)`: the own properties in the order the
constructor assigns them; a property whose value is `undefined` is left
out. -/
def Product.toJson (p : Product) : JsonObject :=
  [("_uuid", JsonPrim.str p._uuid)] ++
  (p._name.map fun v => ("_name", JsonPrim.str v)).toList ++
  (p._description.map fun v => ("_description", JsonPrim.str v)).toList ++
  (p._price.map fun v => ("_price", JsonPrim.num v)).toList ++
  (p._image.map fun v => ("_image", JsonPrim.str v)).toList ++
  (p._category.map fun v => ("_category", JsonPrim.str v)).toList

/-- Value of `JSON.stringify(this._products)`. -/
def stringifyProducts (products : List Product) : JsonArray :=
  products.map Product.toJson

/-- Method `_saveProducts` (script.js 251-253). -/
def ProductManager._saveProducts (m : ProductManager) : ProductManager :=
  { m with localStorage := m.localStorage.setItem "products" (stringifyProducts m._products) }

/-- Property read `obj[key]` on a parsed JSON object. -/
def jsonGet (obj : JsonObject) (key : String) : Option JsonPrim :=
  (obj.find? (fun kv => kv.1 == key)).map Prod.snd

/-- A text property of a parsed object: `some none` when the key is absent,
`none` when the value is not a string (not representable in `Product`). -/
def jsonText (obj : JsonObject) (key : String) : Option (Option String) :=
  match jsonGet obj key with
  | none => some none
  | some (.str text) => some (some text)
  | some (.num _) => none

/-- A numeric property of a parsed object: `some none` when the key is
absent, `none` when the value is not a number. -/
def jsonNumber (obj : JsonObject) (key : String) : Option (Option ℚ) :=
  match jsonGet obj key with
  | none => some none
  | some (.num x) => some (some x)
  | some (.str _) => none

/-- The element of `JSON.parse(...)` for one stored product: a plain object
with the stored keys and without getters. `none` when the document is not of
the shape `_saveProducts` writes. -/
def parseProduct (obj : JsonObject) : Option Product :=
  match jsonGet obj "_uuid", jsonText obj "_name", jsonText obj "_description",
    jsonNumber obj "_price", jsonText obj "_image", jsonText obj "_category" with
  | some (.str uuid), some name, some description, some price, some image, some category =>
    some ⟨false, uuid, name, description, price, image, category⟩
  | _, _, _, _, _, _ => none

/-- Parse every element of a stored array; `none` when one is not
representable. -/
def parseAll {α : Type} (parse : JsonObject → Option α) : JsonArray → Option (List α)
  | [] => some []
  | obj :: rest =>
    match parse obj, parseAll parse rest with
    | some x, some xs => some (x :: xs)
    | _, _ => none

/-- The element of `JSON.parse(...)` for one stored cart entry. -/
def parseItem (obj : JsonObject) : Option CartItem :=
  match jsonGet obj "productUuid", jsonGet obj "amount" with
  | some (.str productUuid), some (.num amount) =>
    if amount.den = 1 then some ⟨productUuid, amount.num⟩ else none
  | _, _ => none

/-- Constructor of `ShoppingCart` (script.js 114-116):
`JSON.parse(localStorage.getItem('cart')) || []`. `none` when the stored
document is not an array of cart entries. -/
def ShoppingCart.new (localStorage : LocalStorage) : Option ShoppingCart :=
  match localStorage.getItem "cart" with
  | none => some ⟨[], localStorage⟩
  | some doc => (parseAll parseItem doc).map fun items => ⟨items, localStorage⟩

/-- The three sample records of `_loadSampleProducts` (script.js 219-244);
`randomUUID i` is the result of the `i`-th call of `crypto.randomUUID()`. -/
def sampleRecords (randomUUID : Nat → String) : List PlainObject :=
  [record (some (randomUUID 0)) (some "Miel de Agave")
      (some ("Made in Mexico, 100% pure and delicious. " ++
        "Keto friendly and weight loss friendly"))
      (some 152)
      (some ("https://elliquorstore.com/sites/default/files/productos/" ++
        "Miel%20de%20agave%20traficante%20500ml.jpg"))
      (some "Sweeteners"),
   record (some (randomUUID 1)) (some "Royal Kona")
      (some ("Made in Hawaii direct from our award winning organic farm. " ++
        "Premium organic gourmet coffee beans"))
      (some 50)
      (some ("https://5.imimg.com/data5/SELLER/Default/2022/2/AL/QD/HP/3067591/" ++
        "coffee-powder-500x500.jpg"))
      (some "Coffee"),
   record (some (randomUUID 2)) (some "Tabasco Banana")
      (some "100% pure Mexican banana. Helps prevent heart disease and more!")
      (some (18 / 5))
      (some ("https://mercanto.mx/cdn/shop/files/" ++
        "14722159_1_c96b134b-63ba-4283-acaa-522c07be604b.jpg?v=1738178500"))
      (some "Fruits")]

/-- Method `_loadSampleProducts` (script.js 218-248): the sample records are
mapped through `createFromObject`, then saved. -/
def ProductManager._loadSampleProducts (m : ProductManager) (randomUUID : Nat → String) :
    ProductManager :=
  let built := (sampleRecords randomUUID).enum.map fun ip =>
    Product.createFromObject ip.2 (randomUUID (3 + ip.1))
  ({ m with _products := built })._saveProducts

/-- Constructor of `ProductManager` (script.js 208-215): the parsed array is
assigned as it is; an empty catalog is seeded. `none` when the stored
document is not an array of stored products. -/
def ProductManager.new (localStorage : LocalStorage) (randomUUID : Nat → String) :
    Option ProductManager :=
  let parsed : Option (List Product) :=
    match localStorage.getItem "products" with
    | none => some []
    | some doc => parseAll parseProduct doc
  parsed.map fun products =>
    let m : ProductManager := ⟨products, localStorage⟩
    if products.length = 0 then m._loadSampleProducts randomUUID else m

/-- Method `getProductById(uuid)` (script.js 261-263); `none` is
`undefined`. -/
def ProductManager.getProductById (m : ProductManager) (uuid : String) : Option Product :=
  m._products.find? (fun p => p.uuid == some uuid)

/-- Method `createProduct(productData)` (script.js 266-271). -/
def ProductManager.createProduct (m : ProductManager) (productData : PlainObject)
    (randomUUID : String) : Except ProductException Product × ProductManager :=
  let newProduct := Product.createFromObject productData randomUUID
  (.ok newProduct, ({ m with _products := m._products ++ [newProduct] })._saveProducts)

/-- Method `updateProduct(uuid, updatedProductData)` (script.js 274-289). -/
def ProductManager.updateProduct (m : ProductManager) (uuid : String)
    (updatedProductData : PlainObject) (randomUUID : String) :
    Except ProductException Product × ProductManager :=
  match findIndex (fun p => p.uuid == some uuid) m._products with
  | none => (.error ⟨"Producto no encontrado"⟩, m)
  | some index =>
    let updatedProduct := Product.createFromObject
      (spread (spread (ownPropertiesAt m._products[index]?) updatedProductData)
        (record (some uuid) none none none none none))
      randomUUID
    (.ok updatedProduct,
     ({ m with _products := m._products.set index updatedProduct })._saveProducts)

/-- Method `deleteProduct(uuid)` (script.js 292-295). -/
def ProductManager.deleteProduct (m : ProductManager) (uuid : String) :
    Except ProductException Unit × ProductManager :=
  (.ok (),
   ({ m with _products := m._products.filter (fun p => !(p.uuid == some uuid)) })._saveProducts)

/-- Save the catalog, then build a manager from the store as a page load
does. -/
def ProductManager.reload (m : ProductManager) (randomUUID : Nat → String) :
    Option ProductManager :=
  ProductManager.new m._saveProducts.localStorage randomUUID

/-- Save the cart, then build a cart from the store as a page load does. -/
def ShoppingCart.reload (c : ShoppingCart) : Option ShoppingCart :=
  ShoppingCart.new c._saveCart.localStorage

/-- One call on the catalog's mutating interface. -/
inductive CatalogOp where
  | createProduct (productData : PlainObject) (randomUUID : String)
  | updateProduct (uuid : String) (updatedProductData : PlainObject) (randomUUID : String)
  | deleteProduct (uuid : String)
  deriving DecidableEq

/-- Perform one call on the catalog. -/
def ProductManager.step (m : ProductManager) : CatalogOp → ProductManager
  | .createProduct d r => (m.createProduct d r).2
  | .updateProduct u d r => (m.updateProduct u d r).2
  | .deleteProduct u => (m.deleteProduct u).2

/-- Perform a finite sequence of calls, left to right. -/
def ProductManager.run (m : ProductManager) (ops : List CatalogOp) : ProductManager :=
  ops.foldl ProductManager.step m

/-- The identifiers held by the catalog, in catalog order. -/
def catalogIds (m : ProductManager) : List String :=
  m._products.map Product._uuid

/-- Number of the last page: `totalPages` as a natural number. -/
def ProductManager.lastPage (m : ProductManager) (itemsPerPage : Int) : Nat :=
  ((m.getPaginatedProducts none (some itemsPerPage)).totalPages.getD 0).toNat

/-- The product lists of pages `1`, `2`, ..., `lastPage`, in that order. -/
def ProductManager.pages (m : ProductManager) (itemsPerPage : Int) : List (List Product) :=
  (List.range (m.lastPage itemsPerPage)).map fun (i : Nat) =>
    (m.getPaginatedProducts (some ((i : Int) + 1)) (some itemsPerPage)).products

/-- The catalog has a product whose `uuid` getter returns `u`. -/
def hasProduct (m : ProductManager) (u : String) : Prop :=
  ∃ p ∈ m._products, p.uuid = some u

/-- The call does not bring an identifier into the catalog that the catalog
already holds: the product built by `createProduct` gets an identifier (the
record's own `uuid` when it carries one, the generated one otherwise) that no
product has, and the generated identifier that `updateProduct` falls back to
for the empty `uuid` is one that no product has. -/
def bringsNoDuplicate (m : ProductManager) : CatalogOp → Prop
  | .createProduct d r => (Product.createFromObject d r)._uuid ∉ catalogIds m
  | .updateProduct u _ r => u = "" → r ∉ catalogIds m
  | .deleteProduct _ => True

/-- Every call of the sequence, at the state it is made in, brings no
duplicate identifier. -/
def noDuplicateRun (m : ProductManager) : List CatalogOp → Prop
  | [] => True
  | op :: rest => bringsNoDuplicate m op ∧ noDuplicateRun (m.step op) rest

/-! ## Sample data -/

/-- A cart with two entries over an empty store. -/
def sampleCart : ShoppingCart :=
  ⟨[⟨"tea", 1⟩, ⟨"mug", 4⟩], ⟨[]⟩⟩

/-- A coffee product. -/
def kona : Product :=
  ⟨true, "p1", some "Royal Kona", some "Beans", some 50, some "kona.jpg", some "Coffee"⟩

/-- A kitchen product whose name contains "Coffee". -/
def coffeeMug : Product :=
  ⟨true, "p2", some "Coffee mug", some "A mug", some 9, some "mug.jpg", some "Kitchen"⟩

/-- A product whose category contains "COFFEE" in capitals. -/
def decaf : Product :=
  ⟨true, "p3", some "Decaf", some "Ground", some 30, some "decaf.jpg", some "Organic COFFEE"⟩

/-- The object that `JSON.parse` returns for the stored `kona`: the same own
properties, no getters. -/
def reloadedKona : Product :=
  { kona with hasPrototype := false }

/-- A product built without a category, as `createProduct` accepts it. -/
def uncategorised : Product :=
  ⟨true, "p4", some "Plain mug", some "A mug", some 5, some "plain.jpg", none⟩

/-- A product manager with three products, two of them in a coffee category. -/
def sampleManager : ProductManager :=
  ⟨[kona, coffeeMug, decaf], ⟨[]⟩⟩

/-- A product whose id is the letter x repeated `i + 1` times. -/
def numbered (i : Nat) : Product :=
  ⟨true, String.mk (List.replicate (i + 1) 'x'), some "Item", some "An item", some 1,
    some "item.jpg", some "Misc"⟩

/-- A product manager with ten products. -/
def tenProducts : ProductManager :=
  ⟨(List.range 10).map numbered, ⟨[]⟩⟩

/-- A product list that prices "tea" at 5/2 and "jar" at 7, and has no "mug". -/
def sampleProducts : List Product :=
  [⟨true, "tea", some "Green tea", some "Loose leaf", some (5 / 2), some "tea.jpg",
      some "Tea"⟩,
   ⟨true, "jar", some "Honey jar", some "Glass jar", some 7, some "jar.jpg",
      some "Sweeteners"⟩]

/-- Generator used in the examples: the `i`-th identifier is the letter u
repeated `i + 1` times. -/
def sampleUUID (i : Nat) : String :=
  String.mk (List.replicate (i + 1) 'u')

/-- Update data that supplies a new price and nothing else. -/
def priceOnly : PlainObject :=
  record none none none (some 60) none none

/-- A record without a name and with a negative price. -/
def invalidRecord : PlainObject :=
  record none none (some "A mug") (some (-5)) (some "plain.jpg") (some "Kitchen")

/-- A valid record that carries the identifier of `kona`. -/
def sameIdRecord : PlainObject :=
  record (some "p1") (some "Other") (some "Another product") (some 7) (some "other.jpg")
    (some "Misc")

/-- A product whose identifier is the empty string, as
`new Product('', 'N', 'D', 1, 'i', 'c')` builds it. -/
def emptyIdProduct : Product :=
  ⟨true, "", some "N", some "D", some 1, some "i", some "c"⟩

/-! ## Lemmas on the array helpers -/

theorem findIndex_eq_none_iff {α : Type} (pred : α → Bool) (l : List α) :
    findIndex pred l = none ↔ ∀ x ∈ l, pred x = false := by
  induction l with
  | nil => simp [findIndex]
  | cons x xs ih =>
    by_cases hx : pred x = true
    · simp [findIndex, hx]
    · simp only [Bool.not_eq_true] at hx
      simp [findIndex, hx, ih]

theorem findIndex_split {α : Type} (pred : α → Bool) (pre post : List α) (e : α)
    (hpre : ∀ x ∈ pre, pred x = false) (he : pred e = true) :
    findIndex pred (pre ++ e :: post) = some pre.length := by
  induction pre with
  | nil => simp [findIndex, he]
  | cons x xs ih =>
    have hx : pred x = false := hpre x (List.mem_cons_self _ _)
    have hxs : ∀ y ∈ xs, pred y = false := fun y hy => hpre y (List.mem_cons_of_mem _ hy)
    simp [findIndex, hx, ih hxs]

theorem findIndex_eq_some {α : Type} (pred : α → Bool) (l : List α) (i : Nat)
    (h : findIndex pred l = some i) :
    ∃ pre e post, l = pre ++ e :: post ∧ pre.length = i ∧
      (∀ x ∈ pre, pred x = false) ∧ pred e = true := by
  induction l generalizing i with
  | nil => simp [findIndex] at h
  | cons x xs ih =>
    by_cases hx : pred x = true
    · simp only [findIndex, hx, if_true, Option.some.injEq] at h
      exact ⟨[], x, xs, rfl, by simpa using h, by simp, hx⟩
    · simp only [Bool.not_eq_true] at hx
      simp only [findIndex, hx, Bool.false_eq_true, if_false, Option.map_eq_some'] at h
      obtain ⟨j, hj, hji⟩ := h
      obtain ⟨pre, e, post, hl, hlen, hpre, he⟩ := ih j hj
      refine ⟨x :: pre, e, post, by simp [hl], by simp [hlen, hji], ?_, he⟩
      intro y hy
      rcases List.mem_cons.mp hy with rfl | hy
      · exact hx
      · exact hpre y hy

theorem updateAt_split {α : Type} (f : α → α) (pre post : List α) (e : α) :
    updateAt f pre.length (pre ++ e :: post) = pre ++ f e :: post := by
  induction pre with
  | nil => simp [updateAt]
  | cons x xs ih => simp [updateAt, ih]

theorem eraseIdx_split {α : Type} (pre post : List α) (e : α) :
    (pre ++ e :: post).eraseIdx pre.length = pre ++ post := by
  induction pre with
  | nil => simp
  | cons x xs ih => simp [ih]

theorem updateAt_length {α : Type} (f : α → α) (i : Nat) (l : List α) :
    (updateAt f i l).length = l.length := by
  induction l generalizing i with
  | nil => simp [updateAt]
  | cons x xs ih => cases i <;> simp [updateAt, ih]

theorem updateAt_map {α β : Type} (g : α → β) (f : α → α) (hf : ∀ x, g (f x) = g x)
    (i : Nat) (l : List α) : (updateAt f i l).map g = l.map g := by
  induction l generalizing i with
  | nil => simp [updateAt]
  | cons x xs ih => cases i <;> simp [updateAt, ih, hf]

/-- The test `item.productUuid === p` fails on every entry exactly when the
cart has no entry for `p`. -/
theorem not_hasEntry_iff (items : List CartItem) (p : String) :
    ¬ hasEntry items p ↔ ∀ x ∈ items, (x.productUuid == p) = false := by
  simp [hasEntry]

theorem hasEntry_split (items : List CartItem) (p : String) (h : hasEntry items p) :
    ∃ pre e post, items = pre ++ e :: post ∧
      (∀ x ∈ pre, x.productUuid ≠ p) ∧ e.productUuid = p := by
  cases hfi : findIndex (fun item : CartItem => item.productUuid == p) items with
  | none =>
    exact absurd h ((not_hasEntry_iff items p).mpr ((findIndex_eq_none_iff _ _).mp hfi))
  | some i =>
    obtain ⟨pre, e, post, hl, -, hpre, he⟩ := findIndex_eq_some _ _ _ hfi
    exact ⟨pre, e, post, hl, fun x hx => by simpa using hpre x hx, by simpa using he⟩

theorem findIndex_cart_split (pre post : List CartItem) (e : CartItem) (p : String)
    (hpre : ∀ x ∈ pre, x.productUuid ≠ p) (he : e.productUuid = p) :
    findIndex (fun item : CartItem => item.productUuid == p) (pre ++ e :: post)
      = some pre.length :=
  findIndex_split _ pre post e (fun x hx => by simpa using hpre x hx) (by simpa using he)

theorem findIndex_cart_none (items : List CartItem) (p : String)
    (h : ¬ hasEntry items p) :
    findIndex (fun item : CartItem => item.productUuid == p) items = none :=
  (findIndex_eq_none_iff _ _).mpr ((not_hasEntry_iff items p).mp h)

/-! ## Cart: `addItem` and `updateItem` -/

theorem addItem_items_of_split (c : ShoppingCart) (p : String) (a : Int) (ha : 0 < a)
    (pre post : List CartItem) (e : CartItem) (hl : c._items = pre ++ e :: post)
    (hpre : ∀ x ∈ pre, x.productUuid ≠ p) (he : e.productUuid = p) :
    (c.addItem p a).2._items = pre ++ ⟨p, e.amount + a⟩ :: post := by
  have hna : ¬ a ≤ 0 := by omega
  have hfi := findIndex_cart_split pre post e p hpre he
  rw [← hl] at hfi
  simp only [ShoppingCart.addItem, hna, if_false, hfi, ShoppingCart._saveCart]
  rw [hl, updateAt_split, he]

theorem addItem_items_of_not_hasEntry (c : ShoppingCart) (p : String) (a : Int)
    (ha : 0 < a) (hno : ¬ hasEntry c._items p) :
    (c.addItem p a).2._items = c._items ++ [⟨p, a⟩] := by
  have hna : ¬ a ≤ 0 := by omega
  simp [ShoppingCart.addItem, hna, findIndex_cart_none _ _ hno, ShoppingCart._saveCart]

theorem getItem_setItem (s : LocalStorage) (key : String) (value : JsonArray) :
    (s.setItem key value).getItem key = some value := by
  simp [LocalStorage.setItem, LocalStorage.getItem]

/-- C1. `addItem` aggregates by product id. For an amount `a > 0` the call
succeeds and persists the new list; when the cart has an entry for `p`, the
first such entry has its quantity increased by exactly `a` and every other
entry, the length and the order of ids are unchanged; when it has none, the
entry `(p, a)` is appended at the end. From a cart with no entry for `p`,
`addItem(p, 2)` then `addItem(p, 3)` leaves exactly one entry for `p`, with
quantity 5. -/
theorem addItem_aggregates (c : ShoppingCart) (p : String) (a : Int) (ha : 0 < a) :
    (c.addItem p a).1 = .ok () ∧
    (c.addItem p a).2.localStorage.getItem "cart"
      = some (stringifyItems (c.addItem p a).2._items) ∧
    (hasEntry c._items p →
      ∃ pre e post, c._items = pre ++ e :: post ∧
        (∀ x ∈ pre, x.productUuid ≠ p) ∧ e.productUuid = p) ∧
    (∀ pre e post, c._items = pre ++ e :: post →
        (∀ x ∈ pre, x.productUuid ≠ p) → e.productUuid = p →
        (c.addItem p a).2._items = pre ++ ⟨p, e.amount + a⟩ :: post ∧
        (c.addItem p a).2._items.length = c._items.length ∧
        (c.addItem p a).2._items.map CartItem.productUuid
          = c._items.map CartItem.productUuid) ∧
    (¬ hasEntry c._items p → (c.addItem p a).2._items = c._items ++ [⟨p, a⟩]) ∧
    (¬ hasEntry c._items p →
      ((c.addItem p 2).2.addItem p 3).2._items = c._items ++ [⟨p, 5⟩] ∧
      (((c.addItem p 2).2.addItem p 3).2._items.filter
        (fun x => x.productUuid == p)) = [⟨p, 5⟩]) := by
  have hna : ¬ a ≤ 0 := by omega
  refine ⟨by simp [ShoppingCart.addItem, hna], ?_, hasEntry_split c._items p, ?_,
    addItem_items_of_not_hasEntry c p a ha, ?_⟩
  · simp only [ShoppingCart.addItem, hna, if_false, ShoppingCart._saveCart, getItem_setItem]
  · intro pre e post hl hpre he
    have hitems := addItem_items_of_split c p a ha pre post e hl hpre he
    refine ⟨hitems, ?_, ?_⟩
    · rw [hitems, hl]; simp
    · rw [hitems, hl]; simp [he]
  · intro hno
    have h1 := addItem_items_of_not_hasEntry c p 2 (by decide) hno
    have hpre : ∀ x ∈ c._items, x.productUuid ≠ p := fun x hx hxp => hno ⟨x, hx, hxp⟩
    have h2 : ((c.addItem p 2).2.addItem p 3).2._items = c._items ++ [⟨p, 5⟩] := by
      have := addItem_items_of_split (c.addItem p 2).2 p 3 (by decide) c._items []
        ⟨p, 2⟩ h1 hpre rfl
      simpa using this
    refine ⟨h2, ?_⟩
    rw [h2, List.filter_append]
    have : c._items.filter (fun x => x.productUuid == p) = [] := by
      simpa [List.filter_eq_nil_iff] using hpre
    simp [this]

/-- Witness for C1 on `sampleCart`: adding 3 to the existing entry "mug"
gives quantity 7 in place, adding 3 of the absent "jar" appends it. -/
theorem addItem_aggregates_witness :
    (0 : Int) < 3 ∧
    (sampleCart.addItem "mug" 3).2._items = [⟨"tea", 1⟩, ⟨"mug", 7⟩] ∧
    (sampleCart.addItem "jar" 3).2._items = [⟨"tea", 1⟩, ⟨"mug", 4⟩, ⟨"jar", 3⟩] :=
  ⟨by decide,
   ((addItem_aggregates sampleCart "mug" 3 (by decide)).2.2.2.1
      [⟨"tea", 1⟩] ⟨"mug", 4⟩ [] rfl (by simp) rfl).1,
   (addItem_aggregates sampleCart "jar" 3 (by decide)).2.2.2.2.1
      (by simp [hasEntry, sampleCart])⟩

theorem updateItem_items_of_split (c : ShoppingCart) (p : String) (n : Int) (hn : 0 ≤ n)
    (pre post : List CartItem) (e : CartItem) (hl : c._items = pre ++ e :: post)
    (hpre : ∀ x ∈ pre, x.productUuid ≠ p) (he : e.productUuid = p) :
    (c.updateItem p n).1 = .ok () ∧
    (c.updateItem p n).2.localStorage.getItem "cart"
      = some (stringifyItems (c.updateItem p n).2._items) ∧
    (c.updateItem p n).2._items
      = if n = 0 then pre ++ post else pre ++ ⟨p, n⟩ :: post := by
  have hnn : ¬ n < 0 := by omega
  have hfi := findIndex_cart_split pre post e p hpre he
  rw [← hl] at hfi
  by_cases h0 : n = 0
  · subst h0
    simp only [ShoppingCart.updateItem, lt_irrefl, if_false, hfi, if_true,
      ShoppingCart._saveCart, getItem_setItem, true_and]
    rw [hl, eraseIdx_split]
  · simp only [ShoppingCart.updateItem, hnn, if_false, hfi, h0,
      ShoppingCart._saveCart, getItem_setItem, true_and]
    rw [hl, updateAt_split, he]

theorem filter_ne_of_forall_ne (l : List CartItem) (p : String)
    (h : ∀ x ∈ l, x.productUuid ≠ p) :
    l.filter (fun x => !(x.productUuid == p)) = l := by
  rw [List.filter_eq_self]
  intro x hx
  simpa using h x hx

/-- C2. `updateItem` on an existing entry, with `newAmount ≥ 0`, succeeds and
persists the new list. With `newAmount = 0` the first entry for `p` is
removed: the other entries keep their values and relative order, and in a
cart with at most one entry per id no entry for `p` is left. With
`newAmount > 0` that entry's quantity becomes exactly `newAmount`; length,
order of ids and every other entry are unchanged. -/
theorem updateItem_existing (c : ShoppingCart) (p : String) (n : Int)
    (hp : hasEntry c._items p) (hn : 0 ≤ n) :
    (c.updateItem p n).1 = .ok () ∧
    (c.updateItem p n).2.localStorage.getItem "cart"
      = some (stringifyItems (c.updateItem p n).2._items) ∧
    (∀ pre e post, c._items = pre ++ e :: post →
        (∀ x ∈ pre, x.productUuid ≠ p) → e.productUuid = p →
        (n = 0 →
          (c.updateItem p n).2._items = pre ++ post ∧
          (c.updateItem p n).2._items.filter (fun x => !(x.productUuid == p))
            = c._items.filter (fun x => !(x.productUuid == p))) ∧
        (0 < n →
          (c.updateItem p n).2._items = pre ++ ⟨p, n⟩ :: post ∧
          (c.updateItem p n).2._items.length = c._items.length ∧
          (c.updateItem p n).2._items.map CartItem.productUuid
            = c._items.map CartItem.productUuid)) ∧
    (n = 0 → uniqueIds c._items →
      ¬ hasEntry (c.updateItem p n).2._items p ∧
      (c.updateItem p n).2._items
        = c._items.filter (fun x => !(x.productUuid == p))) := by
  obtain ⟨pre, e, post, hl, hpre, he⟩ := hasEntry_split c._items p hp
  obtain ⟨hok, hsave, hitems⟩ := updateItem_items_of_split c p n hn pre post e hl hpre he
  refine ⟨hok, hsave, ?_, ?_⟩
  · intro pre2 e2 post2 hl2 hpre2 he2
    have h2 := (updateItem_items_of_split c p n hn pre2 post2 e2 hl2 hpre2 he2).2.2
    constructor
    · intro h0
      rw [if_pos h0] at h2
      refine ⟨h2, ?_⟩
      rw [h2, hl2]
      simp [List.filter_append, List.filter_cons, he2]
    · intro hpos
      have h0 : n ≠ 0 := by omega
      rw [if_neg h0] at h2
      refine ⟨h2, ?_, ?_⟩
      · rw [h2, hl2]; simp
      · rw [h2, hl2]; simp [he2]
  · intro h0 huniq
    rw [if_pos h0] at hitems
    have hpost : ∀ x ∈ post, x.productUuid ≠ p := by
      intro x hx hxp
      unfold uniqueIds at huniq
      rw [hl] at huniq
      simp only [List.map_append, List.map_cons] at huniq
      have hnd := (List.nodup_append.mp huniq).2.1
      have := (List.nodup_cons.mp hnd).1
      apply this
      rw [he, ← hxp]
      exact List.mem_map_of_mem _ hx
    constructor
    · rw [hitems]
      rintro ⟨x, hx, hxp⟩
      rcases List.mem_append.mp hx with hx | hx
      · exact hpre x hx hxp
      · exact hpost x hx hxp
    · rw [hitems, hl]
      simp [List.filter_append, List.filter_cons, he,
        filter_ne_of_forall_ne pre p hpre, filter_ne_of_forall_ne post p hpost]

/-- Witness for C2 on `sampleCart`: `updateItem("mug", 0)` removes the entry,
`updateItem("mug", 9)` sets its quantity to 9. -/
theorem updateItem_existing_witness :
    hasEntry sampleCart._items "mug" ∧ (0 : Int) ≤ 0 ∧ (0 : Int) ≤ 9 ∧
    (sampleCart.updateItem "mug" 0).2._items = [⟨"tea", 1⟩] ∧
    (sampleCart.updateItem "mug" 9).2._items = [⟨"tea", 1⟩, ⟨"mug", 9⟩] :=
  ⟨⟨⟨"mug", 4⟩, by simp [sampleCart], rfl⟩, by decide, by decide,
   (((updateItem_existing sampleCart "mug" 0
      ⟨⟨"mug", 4⟩, by simp [sampleCart], rfl⟩ (by decide)).2.2.1
      [⟨"tea", 1⟩] ⟨"mug", 4⟩ [] rfl (by simp) rfl).1 rfl).1,
   (((updateItem_existing sampleCart "mug" 9
      ⟨⟨"mug", 4⟩, by simp [sampleCart], rfl⟩ (by decide)).2.2.1
      [⟨"tea", 1⟩] ⟨"mug", 4⟩ [] rfl (by simp) rfl).2 (by decide)).1⟩

/-- C3. `updateItem` raises exactly when `newAmount < 0` or the cart has no
entry for `p`; whenever it raises, the entry list and the store are what they
were before the call. -/
theorem updateItem_raises_iff (c : ShoppingCart) (p : String) (n : Int) :
    ((∃ e, (c.updateItem p n).1 = .error e) ↔ (n < 0 ∨ ¬ hasEntry c._items p)) ∧
    ((∃ e, (c.updateItem p n).1 = .error e) → (c.updateItem p n).2 = c) ∧
    (n < 0 → (c.updateItem p n).1 = .error ⟨"La cantidad no puede ser negativa"⟩) ∧
    (0 ≤ n → ¬ hasEntry c._items p →
      (c.updateItem p n).1 = .error ⟨"Producto no encontrado en el carrito"⟩) := by
  by_cases hn : n < 0
  · simp [ShoppingCart.updateItem, hn]
  · by_cases hp : hasEntry c._items p
    · obtain ⟨pre, e, post, hl, hpre, he⟩ := hasEntry_split c._items p hp
      have hok := (updateItem_items_of_split c p n (by omega) pre post e hl hpre he).1
      refine ⟨?_, ?_, fun h => absurd h hn, fun _ h => absurd hp h⟩
      · simp [hok, hn, hp]
      · simp [hok]
    · simp [ShoppingCart.updateItem, hn, findIndex_cart_none _ _ hp, hp]

/-- Witness for C3 on `sampleCart`: a negative amount and a missing id both
raise and leave the cart and the store as they were; a valid call does not
raise. -/
theorem updateItem_raises_iff_witness :
    (∃ e, (sampleCart.updateItem "mug" (-1)).1 = .error e) ∧
    (sampleCart.updateItem "mug" (-1)).2 = sampleCart ∧
    (sampleCart.updateItem "jar" 1).2 = sampleCart ∧
    ¬ (∃ e, (sampleCart.updateItem "mug" 2).1 = .error e) :=
  ⟨(updateItem_raises_iff sampleCart "mug" (-1)).1.mpr (Or.inl (by decide)),
   (updateItem_raises_iff sampleCart "mug" (-1)).2.1
     ((updateItem_raises_iff sampleCart "mug" (-1)).1.mpr (Or.inl (by decide))),
   (updateItem_raises_iff sampleCart "jar" 1).2.1
     ((updateItem_raises_iff sampleCart "jar" 1).1.mpr
       (Or.inr (by simp [hasEntry, sampleCart]))),
   fun h => ((updateItem_raises_iff sampleCart "mug" 2).1.mp h).elim (by decide)
     (fun hno => hno ⟨⟨"mug", 4⟩, by simp [sampleCart], rfl⟩)⟩

/-- C4. `addItem` raises exactly when `amount ≤ 0`; whenever it raises, the
entry list and the store are what they were before the call, whether or not
an entry for `p` existed. -/
theorem addItem_raises_iff (c : ShoppingCart) (p : String) (a : Int) :
    ((∃ e, (c.addItem p a).1 = .error e) ↔ a ≤ 0) ∧
    ((∃ e, (c.addItem p a).1 = .error e) → (c.addItem p a).2 = c) ∧
    (a ≤ 0 → (c.addItem p a).1 = .error ⟨"La cantidad debe ser mayor a 0"⟩) := by
  by_cases ha : a ≤ 0
  · simp [ShoppingCart.addItem, ha]
  · simp [ShoppingCart.addItem, ha]

/-- Witness for C4 on `sampleCart`: amounts 0 and -2 raise and leave the cart
as it was, for an existing and for an absent id; amount 1 does not raise. -/
theorem addItem_raises_iff_witness :
    (∃ e, (sampleCart.addItem "mug" 0).1 = .error e) ∧
    (sampleCart.addItem "mug" 0).2 = sampleCart ∧
    (sampleCart.addItem "jar" (-2)).2 = sampleCart ∧
    ¬ (∃ e, (sampleCart.addItem "mug" 1).1 = .error e) :=
  ⟨(addItem_raises_iff sampleCart "mug" 0).1.mpr (by decide),
   (addItem_raises_iff sampleCart "mug" 0).2.1
     ((addItem_raises_iff sampleCart "mug" 0).1.mpr (by decide)),
   (addItem_raises_iff sampleCart "jar" (-2)).2.1
     ((addItem_raises_iff sampleCart "jar" (-2)).1.mpr (by decide)),
   fun h => absurd ((addItem_raises_iff sampleCart "mug" 1).1.mp h) (by decide)⟩

/-! ## Cart invariants -/

/-- The three shapes of the entry list after `addItem`. -/
theorem addItem_items_cases (c : ShoppingCart) (p : String) (a : Int) :
    (c.addItem p a).2._items = c._items ∨
    (0 < a ∧ ∃ pre e post, c._items = pre ++ e :: post ∧
      (c.addItem p a).2._items = pre ++ ⟨e.productUuid, e.amount + a⟩ :: post) ∨
    (0 < a ∧ ¬ hasEntry c._items p ∧ (c.addItem p a).2._items = c._items ++ [⟨p, a⟩]) := by
  by_cases ha : 0 < a
  · by_cases hp : hasEntry c._items p
    · obtain ⟨pre, e, post, hl, hpre, he⟩ := hasEntry_split c._items p hp
      refine Or.inr (Or.inl ⟨ha, pre, e, post, hl, ?_⟩)
      rw [addItem_items_of_split c p a ha pre post e hl hpre he, he]
    · exact Or.inr (Or.inr ⟨ha, hp, addItem_items_of_not_hasEntry c p a ha hp⟩)
  · have hle : a ≤ 0 := by omega
    exact Or.inl (by simp [ShoppingCart.addItem, hle])

/-- The three shapes of the entry list after `updateItem`. -/
theorem updateItem_items_cases (c : ShoppingCart) (p : String) (n : Int) :
    (c.updateItem p n).2._items = c._items ∨
    (∃ pre e post, c._items = pre ++ e :: post ∧
      (c.updateItem p n).2._items = pre ++ post) ∨
    (0 < n ∧ ∃ pre e post, c._items = pre ++ e :: post ∧
      (c.updateItem p n).2._items = pre ++ ⟨e.productUuid, n⟩ :: post) := by
  by_cases hn : 0 ≤ n
  · by_cases hp : hasEntry c._items p
    · obtain ⟨pre, e, post, hl, hpre, he⟩ := hasEntry_split c._items p hp
      have h := (updateItem_items_of_split c p n hn pre post e hl hpre he).2.2
      by_cases h0 : n = 0
      · rw [if_pos h0] at h
        exact Or.inr (Or.inl ⟨pre, e, post, hl, h⟩)
      · rw [if_neg h0] at h
        refine Or.inr (Or.inr ⟨by omega, pre, e, post, hl, ?_⟩)
        rw [h, he]
    · have hnn : ¬ n < 0 := by omega
      exact Or.inl (by simp [ShoppingCart.updateItem, hnn, findIndex_cart_none _ _ hp])
  · have hlt : n < 0 := by omega
    exact Or.inl (by simp [ShoppingCart.updateItem, hlt])

theorem removeItem_items (c : ShoppingCart) (p : String) :
    (c.removeItem p).2._items = c._items.filter (fun x => !(x.productUuid == p)) := by
  simp [ShoppingCart.removeItem, ShoppingCart._saveCart]

theorem step_uniqueIds (c : ShoppingCart) (op : CartOp) (h : uniqueIds c._items) :
    uniqueIds (c.step op)._items := by
  unfold uniqueIds at h ⊢
  cases op with
  | addItem p a =>
    rcases addItem_items_cases c p a with h1 | ⟨-, pre, e, post, hl, h1⟩ | ⟨-, hno, h1⟩
    · simpa [ShoppingCart.step, h1] using h
    · simp only [ShoppingCart.step, h1]
      rw [hl] at h
      simpa using h
    · simp only [ShoppingCart.step, h1, List.map_append, List.map_cons, List.map_nil]
      rw [List.nodup_append]
      refine ⟨h, List.nodup_singleton _, ?_⟩
      intro x hx hx2
      rw [List.mem_singleton] at hx2
      obtain ⟨y, hy, hyx⟩ := List.mem_map.mp hx
      exact hno ⟨y, hy, hyx.trans hx2⟩
  | updateItem p n =>
    rcases updateItem_items_cases c p n with h1 | ⟨pre, e, post, hl, h1⟩ |
      ⟨-, pre, e, post, hl, h1⟩
    · simpa [ShoppingCart.step, h1] using h
    · simp only [ShoppingCart.step, h1]
      rw [hl] at h
      refine h.sublist ?_
      simp
    · simp only [ShoppingCart.step, h1]
      rw [hl] at h
      simpa using h
  | removeItem p =>
    simp only [ShoppingCart.step, removeItem_items]
    exact h.sublist (List.Sublist.map _ (List.filter_sublist _))

/-- C5. Cart uniqueness invariant: from the empty cart, or from any cart whose
entries have pairwise distinct product ids, every finite sequence of
`addItem`, `updateItem` and `removeItem` calls (raising or not, with arbitrary
ids and amounts) leaves a cart whose product ids are pairwise distinct. -/
theorem run_uniqueIds (ops : List CartOp) :
    uniqueIds (ShoppingCart.empty.run ops)._items ∧
    ∀ c : ShoppingCart, uniqueIds c._items → uniqueIds (c.run ops)._items := by
  have key : ∀ c : ShoppingCart, uniqueIds c._items → uniqueIds (c.run ops)._items := by
    induction ops with
    | nil => intro c h; simpa [ShoppingCart.run] using h
    | cons op rest ih =>
      intro c h
      have := ih (c.step op) (step_uniqueIds c op h)
      simpa [ShoppingCart.run] using this
  exact ⟨key _ (by simp [uniqueIds, ShoppingCart.empty]), key⟩

/-- Witness for C5: a sequence mixing successful and raising calls on
`sampleCart` keeps the ids distinct. -/
theorem run_uniqueIds_witness :
    uniqueIds sampleCart._items ∧
    uniqueIds (sampleCart.run
      [.addItem "mug" 2, .addItem "jar" 1, .addItem "jar" 0, .updateItem "tea" 0,
       .updateItem "nil" 3, .removeItem "mug", .addItem "mug" 1])._items :=
  ⟨by simp [uniqueIds, sampleCart],
   (run_uniqueIds _).2 sampleCart (by simp [uniqueIds, sampleCart])⟩

theorem step_positiveAmounts (c : ShoppingCart) (op : CartOp)
    (h : positiveAmounts c._items) : positiveAmounts (c.step op)._items := by
  unfold positiveAmounts at h ⊢
  cases op with
  | addItem p a =>
    rcases addItem_items_cases c p a with h1 | ⟨ha, pre, e, post, hl, h1⟩ | ⟨ha, -, h1⟩
    · simpa [ShoppingCart.step, h1] using h
    · simp only [ShoppingCart.step, h1]
      rw [hl] at h
      intro x hx
      rcases List.mem_append.mp hx with hx | hx
      · exact h x (List.mem_append_left _ hx)
      · rcases List.mem_cons.mp hx with rfl | hx
        · have := h e (by simp)
          show 0 < e.amount + a
          omega
        · exact h x (by simp [hx])
    · simp only [ShoppingCart.step, h1]
      intro x hx
      rcases List.mem_append.mp hx with hx | hx
      · exact h x hx
      · rw [List.mem_singleton] at hx
        subst hx
        exact ha
  | updateItem p n =>
    rcases updateItem_items_cases c p n with h1 | ⟨pre, e, post, hl, h1⟩ |
      ⟨hn, pre, e, post, hl, h1⟩
    · simpa [ShoppingCart.step, h1] using h
    · simp only [ShoppingCart.step, h1]
      rw [hl] at h
      intro x hx
      rcases List.mem_append.mp hx with hx | hx
      · exact h x (by simp [hx])
      · exact h x (by simp [hx])
    · simp only [ShoppingCart.step, h1]
      rw [hl] at h
      intro x hx
      rcases List.mem_append.mp hx with hx | hx
      · exact h x (by simp [hx])
      · rcases List.mem_cons.mp hx with rfl | hx
        · exact hn
        · exact h x (by simp [hx])
  | removeItem p =>
    simp only [ShoppingCart.step, removeItem_items]
    intro x hx
    exact h x (List.mem_filter.mp hx).1

/-- C6. Cart quantity invariant: from the empty cart, or from any cart whose
quantities are all positive, every finite sequence of `addItem`, `updateItem`
and `removeItem` calls with integer amounts (raising or not) leaves a cart in
which every stored entry has quantity > 0; in particular no entry with
quantity 0 is stored. -/
theorem run_positiveAmounts (ops : List CartOp) :
    positiveAmounts (ShoppingCart.empty.run ops)._items ∧
    ∀ c : ShoppingCart, positiveAmounts c._items →
      positiveAmounts (c.run ops)._items ∧
      ∀ item ∈ (c.run ops)._items, item.amount ≠ 0 := by
  have key : ∀ c : ShoppingCart, positiveAmounts c._items →
      positiveAmounts (c.run ops)._items := by
    induction ops with
    | nil => intro c h; simpa [ShoppingCart.run] using h
    | cons op rest ih =>
      intro c h
      have := ih (c.step op) (step_positiveAmounts c op h)
      simpa [ShoppingCart.run] using this
  refine ⟨key _ (by simp [positiveAmounts, ShoppingCart.empty]), fun c h => ⟨key c h, ?_⟩⟩
  intro item hitem h0
  have := key c h item hitem
  omega

/-- Witness for C6: a sequence mixing successful and raising calls on
`sampleCart` keeps every quantity positive. -/
theorem run_positiveAmounts_witness :
    positiveAmounts sampleCart._items ∧
    positiveAmounts (sampleCart.run
      [.addItem "mug" 2, .addItem "jar" (-5), .updateItem "tea" 0,
       .updateItem "mug" (-1), .updateItem "mug" 3, .removeItem "jar"])._items :=
  ⟨by simp [positiveAmounts, sampleCart],
   ((run_positiveAmounts _).2 sampleCart (by simp [positiveAmounts, sampleCart])).1⟩

/-! ## Cart total -/

theorem jsAdd_zero (x : Option ℚ) : jsAdd x (some 0) = x := by
  cases x <;> simp [jsAdd]

theorem zero_jsAdd (x : Option ℚ) : jsAdd (some 0) x = x := by
  cases x <;> simp [jsAdd]

theorem jsAdd_assoc (x y z : Option ℚ) : jsAdd (jsAdd x y) z = jsAdd x (jsAdd y z) := by
  cases x <;> cases y <;> cases z <;> simp [jsAdd, add_assoc]

theorem foldl_jsAdd (init : Option ℚ) (l : List (Option ℚ)) :
    l.foldl jsAdd init = jsAdd init (l.foldr jsAdd (some 0)) := by
  induction l generalizing init with
  | nil => simp [jsAdd_zero]
  | cons x xs ih => simp [ih, jsAdd_assoc]

/-- One step of the `reduce` callback adds the reference contribution. -/
theorem reduce_step (products : List Product) (total : Option ℚ) (item : CartItem) :
    (match products.find? (fun p => p.uuid == some item.productUuid) with
      | some product => jsAdd total (jsMul product.price (some (item.amount : ℚ)))
      | none => total) = jsAdd total (contribution products item) := by
  unfold contribution priceOf
  cases products.find? (fun p => p.uuid == some item.productUuid) with
  | none => simp [jsAdd_zero]
  | some product => simp

theorem total_eq_reference (items : List CartItem) (products : List Product)
    (store : LocalStorage) :
    ((⟨items, store⟩ : ShoppingCart).calculateTotal products).1
      = referenceTotal items products := by
  unfold ShoppingCart.calculateTotal referenceTotal
  simp only [reduce_step]
  rw [← List.foldl_map, foldl_jsAdd, zero_jsAdd]

theorem referenceTotal_exact (items : List CartItem) (products : List Product)
    (h : ∀ item ∈ items, priceOf products item.productUuid ≠ some none) :
    referenceTotal items products = some ((items.map (exactContribution products)).sum) := by
  induction items with
  | nil => simp [referenceTotal]
  | cons x xs ih =>
    have hx := h x (List.mem_cons_self _ _)
    have hxs := ih (fun item hi => h item (List.mem_cons_of_mem _ hi))
    unfold referenceTotal at hxs ⊢
    simp only [List.map_cons, List.foldr_cons, List.sum_cons, hxs]
    unfold contribution exactContribution
    rcases hpo : priceOf products x.productUuid with _ | _ | price
    · simp [jsAdd]
    · exact absurd hpo hx
    · simp [jsAdd, jsMul]

theorem referenceTotal_skip (pre post : List CartItem) (e : CartItem)
    (products : List Product) (h : priceOf products e.productUuid = none) :
    referenceTotal (pre ++ e :: post) products = referenceTotal (pre ++ post) products := by
  induction pre with
  | nil => simp [referenceTotal, contribution, h, zero_jsAdd]
  | cons x xs ih =>
    unfold referenceTotal at ih ⊢
    simp only [List.cons_append, List.map_cons, List.foldr_cons, ih]

/-- C7. `calculateTotal` equals the reference sum: over all cart entries,
price times quantity with the price of the product of the list that has the
entry's id, and 0 for an entry whose id occurs nowhere in the list. It is a
total function (never raises) and returns the cart as it was. When every
referenced product has a price the total is the exact rational sum. The
total of the empty cart is 0, and an entry referencing a missing product
leaves the total equal to the total of the remaining entries. -/
theorem calculateTotal_eq_reference (c : ShoppingCart) (products : List Product) :
    (c.calculateTotal products).1 = referenceTotal c._items products ∧
    (c.calculateTotal products).2 = c ∧
    ((∀ item ∈ c._items, priceOf products item.productUuid ≠ some none) →
      (c.calculateTotal products).1
        = some ((c._items.map (exactContribution products)).sum)) ∧
    (c._items = [] → (c.calculateTotal products).1 = some 0) ∧
    (∀ pre e post, c._items = pre ++ e :: post →
      (∀ q ∈ products, q.uuid ≠ some e.productUuid) →
      (c.calculateTotal products).1
        = ((⟨pre ++ post, c.localStorage⟩ : ShoppingCart).calculateTotal products).1) := by
  have hc : (c.calculateTotal products).1 = referenceTotal c._items products :=
    total_eq_reference c._items products c.localStorage
  refine ⟨hc, rfl, ?_, ?_, ?_⟩
  · intro h
    rw [hc, referenceTotal_exact _ _ h]
  · intro h
    rw [hc, h]
    rfl
  · intro pre e post hl hmissing
    rw [hc, total_eq_reference, hl]
    apply referenceTotal_skip
    unfold priceOf
    have : products.find? (fun p => p.uuid == some e.productUuid) = none := by
      rw [List.find?_eq_none]
      intro q hq
      simpa using hmissing q hq
    simp [this]

/-- Witness for C7: over `sampleProducts` the cart tea x1, mug x4 totals 5/2,
the "mug" entry (no such product) contributing nothing. -/
theorem calculateTotal_eq_reference_witness :
    (sampleCart.calculateTotal sampleProducts).1 = some (5 / 2) ∧
    (sampleCart.calculateTotal sampleProducts).1
      = ((⟨[⟨"tea", 1⟩], sampleCart.localStorage⟩ : ShoppingCart).calculateTotal
          sampleProducts).1 :=
  ⟨((calculateTotal_eq_reference sampleCart sampleProducts).2.2.1
      (by simp [sampleCart, sampleProducts, priceOf, Product.uuid, Product.price])).trans
      (by simp [sampleCart, sampleProducts, exactContribution, priceOf, Product.uuid,
            Product.price]),
   (calculateTotal_eq_reference sampleCart sampleProducts).2.2.2.2
      [⟨"tea", 1⟩] ⟨"mug", 4⟩ [] rfl
      (by simp [sampleProducts, Product.uuid])⟩

/-! ## Search -/

theorem includes_iff (s search : List Char) : includes s search = true ↔ search <:+: s := by
  unfold includes
  rw [List.any_eq_true, List.infix_iff_prefix_suffix]
  constructor
  · rintro ⟨t, ht, hp⟩
    exact ⟨t, List.isPrefixOf_iff_prefix.mp hp, (List.mem_tails _ _).mp ht⟩
  · rintro ⟨t, hp, ht⟩
    exact ⟨t, (List.mem_tails _ _).mpr ht, List.isPrefixOf_iff_prefix.mpr hp⟩

theorem split_ne_nil (sep : Char) (s : List Char) : split sep s ≠ [] := by
  induction s with
  | nil => simp [split]
  | cons ch rest ih =>
    unfold split
    split_ifs
    · simp
    · cases h : split sep rest with
      | nil => exact absurd h ih
      | cons part parts => simp

theorem split_of_not_mem (sep : Char) (s : List Char) (h : sep ∉ s) : split sep s = [s] := by
  induction s with
  | nil => simp [split]
  | cons ch rest ih =>
    have hne : ch ≠ sep := fun e => h (by simp [e])
    have hrest : sep ∉ rest := fun e => h (List.mem_cons_of_mem _ e)
    simp [split, hne, ih hrest]

theorem split_append_sep (sep : Char) (c r : List Char) (h : sep ∉ c) :
    split sep (c ++ sep :: r) = c :: split sep r := by
  induction c with
  | nil => simp [split]
  | cons ch rest ih =>
    have hne : ch ≠ sep := fun e => h (by simp [e])
    have hrest : sep ∉ rest := fun e => h (List.mem_cons_of_mem _ e)
    simp [split, hne, ih hrest]

theorem filterE_eq_filter {α : Type} (f : α → Except JSError Bool) (g : α → Bool)
    (l : List α) (h : ∀ x ∈ l, f x = .ok (g x)) : filterE f l = .ok (l.filter g) := by
  induction l with
  | nil => simp [filterE]
  | cons x xs ih =>
    have hx := h x (List.mem_cons_self _ _)
    have hxs := ih (fun y hy => h y (List.mem_cons_of_mem _ hy))
    cases hg : g x <;> simp [filterE, hx, hxs, List.filter_cons, hg]

/-- On a product that exposes the field, a defined part agrees with the
criterion of the specification. -/
theorem partMatch_some (toLowerCase : List Char → List Char)
    (filter : List Char) (field : Option String)
    (h : filter ≠ [] → field.isSome) :
    partMatch toLowerCase (some filter) field
      = .ok (filter.isEmpty || fieldContains toLowerCase field filter) := by
  cases filter with
  | nil => simp [partMatch]
  | cons ch rest =>
    cases field with
    | none => simp at h
    | some text =>
      simp only [partMatch, fieldContains, containsIgnoreCase, List.isEmpty_cons,
        Bool.false_or, Except.ok.injEq]
      rw [Bool.eq_iff_iff, includes_iff]
      simp

theorem productMatches_eq (toLowerCase : List Char → List Char)
    (cf nf : List Char) (p : Product)
    (hc : cf ≠ [] → p.category.isSome) (hn : nf ≠ [] → p.name.isSome) :
    productMatches toLowerCase (some cf) (some nf) p
      = .ok (matchesFilters toLowerCase cf nf p) := by
  unfold productMatches
  rw [partMatch_some toLowerCase cf _ hc, partMatch_some toLowerCase nf _ hn]
  simp [matchesFilters]

theorem productMatches_eq_none (toLowerCase : List Char → List Char)
    (cf : List Char) (p : Product)
    (hc : cf ≠ [] → p.category.isSome) :
    productMatches toLowerCase (some cf) none p
      = .ok (matchesFilters toLowerCase cf [] p) := by
  unfold productMatches
  rw [partMatch_some toLowerCase cf _ hc]
  simp [partMatch, matchesFilters]

/-- The outcome of `findProduct` on a non-empty query, from the parts that
`split` yields. -/
theorem findProduct_of_parts (toLowerCase : List Char → List Char)
    (m : ProductManager) (q : String) (hq : q.data ≠ [])
    (cf nf : List Char) (rest : List (List Char))
    (hparts : split ':' q.data = [cf] ∧ nf = [] ∨ split ':' q.data = cf :: nf :: rest)
    (hp : fieldsPresent (trim cf) (trim nf) m._products) :
    m.findProduct toLowerCase (some q)
      = .ok (m._products.filter (matchesFilters toLowerCase (trim cf) (trim nf))) := by
  rcases hparts with ⟨hs, hnf⟩ | hs
  · subst hnf
    simp only [ProductManager.findProduct, hq, if_false, hs, List.map_cons, List.map_nil]
    apply filterE_eq_filter
    intro p hmem
    have : trim [] = [] := rfl
    rw [this]
    simpa using productMatches_eq_none toLowerCase _ p (hp p hmem).1
  · simp only [ProductManager.findProduct, hq, if_false, hs, List.map_cons]
    apply filterE_eq_filter
    intro p hmem
    simpa using productMatches_eq toLowerCase _ _ p (hp p hmem).1 (hp p hmem).2

theorem filterE_sublist {α : Type} (f : α → Except JSError Bool) (l result : List α)
    (h : filterE f l = .ok result) : result.Sublist l := by
  induction l generalizing result with
  | nil =>
    simp only [filterE, Except.ok.injEq] at h
    subst h
    exact List.Sublist.refl _
  | cons x xs ih =>
    unfold filterE at h
    cases hx : f x with
    | error e => simp [hx] at h
    | ok keep =>
      cases hxs : filterE f xs with
      | error e => simp [hx, hxs] at h
      | ok rest =>
        simp only [hx, hxs, Except.ok.injEq] at h
        subst h
        have hsub := ih rest hxs
        cases keep
        · exact hsub.trans (List.sublist_cons_self _ _)
        · simpa using hsub

/-- Search on a catalog whose products expose the fields that the non-empty
filters read. An absent or empty query returns the whole catalog. A query
without a colon filters on the category with the trimmed query; a query `c:t`
filters on the trimmed `c` as category filter and the trimmed `t` as name
filter, and text after a second colon is ignored. The result is the catalog
filtered by the criterion of the specification (same relative order, nothing
added, nothing omitted). `findProduct("Coffee:")` returns exactly the
products whose category contains "Coffee" ignoring case, whatever their
names. This holds for every case mapping `toLowerCase`. -/
theorem findProduct_matches (toLowerCase : List Char → List Char)
    (m : ProductManager) :
    m.findProduct toLowerCase none = .ok m._products ∧
    m.findProduct toLowerCase (some "") = .ok m._products ∧
    (∀ q : String, q.data ≠ [] → ':' ∉ q.data →
      fieldsPresent (trim q.data) [] m._products →
      m.findProduct toLowerCase (some q)
        = .ok (m._products.filter (matchesFilters toLowerCase (trim q.data) []))) ∧
    (∀ c t : List Char, ':' ∉ c → ':' ∉ t →
      fieldsPresent (trim c) (trim t) m._products →
      m.findProduct toLowerCase (some ⟨c ++ ':' :: t⟩)
        = .ok (m._products.filter (matchesFilters toLowerCase (trim c) (trim t)))) ∧
    (∀ c t r : List Char, ':' ∉ c → ':' ∉ t →
      fieldsPresent (trim c) (trim t) m._products →
      m.findProduct toLowerCase (some ⟨c ++ ':' :: (t ++ ':' :: r)⟩)
        = .ok (m._products.filter (matchesFilters toLowerCase (trim c) (trim t)))) ∧
    (∀ q result, m.findProduct toLowerCase q = .ok result → result.Sublist m._products) ∧
    ((∀ p ∈ m._products, p.category.isSome) →
      m.findProduct toLowerCase (some "Coffee:")
        = .ok (m._products.filter
            (fun p => fieldContains toLowerCase p.category "Coffee".data))) := by
  refine ⟨rfl, rfl, ?_, ?_, ?_, ?_, ?_⟩
  · intro q hq hcolon hp
    exact findProduct_of_parts toLowerCase m q hq q.data [] []
      (Or.inl ⟨split_of_not_mem _ _ hcolon, rfl⟩) hp
  · intro c t hc ht hp
    refine findProduct_of_parts toLowerCase m ⟨c ++ ':' :: t⟩ (by simp) c t []
      (Or.inr ?_) hp
    show split ':' (c ++ ':' :: t) = [c, t]
    rw [split_append_sep _ _ _ hc, split_of_not_mem _ _ ht]
  · intro c t r hc ht hp
    refine findProduct_of_parts toLowerCase m ⟨c ++ ':' :: (t ++ ':' :: r)⟩ (by simp) c t
      (split ':' r) (Or.inr ?_) hp
    show split ':' (c ++ ':' :: (t ++ ':' :: r)) = c :: t :: split ':' r
    rw [split_append_sep _ _ _ hc, split_append_sep _ _ _ ht]
  · intro q result h
    cases q with
    | none =>
      simp only [ProductManager.findProduct, Except.ok.injEq] at h
      subst h
      exact List.Sublist.refl _
    | some q =>
      by_cases hq : q.data = []
      · simp only [ProductManager.findProduct, hq, if_true, Except.ok.injEq] at h
        subst h
        exact List.Sublist.refl _
      · simp only [ProductManager.findProduct, hq, if_false] at h
        exact filterE_sublist _ _ _ h
  · intro hcat
    have hsplit : split ':' "Coffee:".data = ["Coffee".data, []] := by decide
    have htrim : trim "Coffee".data = "Coffee".data := by decide
    have hp : fieldsPresent (trim "Coffee".data) (trim []) m._products := by
      intro p hmem
      exact ⟨fun _ => hcat p hmem, fun h => absurd rfl h⟩
    rw [findProduct_of_parts toLowerCase m "Coffee:" (by decide) "Coffee".data [] []
      (Or.inr hsplit) hp, htrim]
    congr 1
    apply List.filter_congr
    intro p _
    have ht0 : trim ([] : List Char) = [] := rfl
    cases hc : p.category with
    | none => simp [matchesFilters, fieldContains, hc]
    | some text => simp [matchesFilters, fieldContains, hc, containsIgnoreCase, ht0]

/-- Search on `sampleManager` with the ASCII case mapping: "Coffee:" selects
the two products of a coffee category (not the mug whose name contains
"Coffee"), and " : MUG " selects the product whose name contains "mug". -/
theorem findProduct_matches_example :
    (∀ p ∈ sampleManager._products, p.category.isSome) ∧
    sampleManager.findProduct lowerAscii (some "Coffee:") = .ok [kona, decaf] ∧
    sampleManager.findProduct lowerAscii (some " : MUG ") = .ok [coffeeMug] :=
  ⟨by decide,
   ((findProduct_matches lowerAscii sampleManager).2.2.2.2.2.2 (by decide)).trans
     (congrArg Except.ok (by decide)),
   ((findProduct_matches lowerAscii sampleManager).2.2.2.1 " ".data " MUG ".data
      (by decide) (by decide) (by unfold fieldsPresent; decide)).trans
     (congrArg Except.ok (by decide))⟩

/-! ## Pagination -/

theorem take_drop_clamp {α : Type} (l : List α) (a b : Nat) :
    (l.drop (min a l.length)).take (min b l.length - min a l.length)
      = (l.drop a).take (b - a) := by
  by_cases ha : l.length ≤ a
  · rw [List.drop_eq_nil_of_le ha, Nat.min_eq_right ha, List.drop_eq_nil_of_le (le_refl _)]
    simp
  · have ha' : a < l.length := by omega
    rw [Nat.min_eq_left (by omega : a ≤ l.length)]
    by_cases hb : b ≤ l.length
    · rw [Nat.min_eq_left hb]
    · rw [Nat.min_eq_right (by omega : l.length ≤ b),
        List.take_of_length_le (by simp), List.take_of_length_le (by simp; omega)]

/-- Function `slice` with `0 ≤ start ≤ stop` drops `start` elements and keeps the next
`stop - start`. -/
theorem slice_of_nonneg {α : Type} (arr : List α) (start stop : Int)
    (h0 : 0 ≤ start) (h1 : start ≤ stop) :
    slice arr start stop = (arr.drop start.toNat).take (stop - start).toNat := by
  unfold slice
  have hs : ¬ start < 0 := by omega
  have he : ¬ stop < 0 := by omega
  simp only [hs, he, if_false]
  rw [show (stop - start).toNat = stop.toNat - start.toNat by omega,
    ← take_drop_clamp arr start.toNat stop.toNat]
  congr 2 <;> omega

theorem take_drop_eq_nil_iff {α : Type} (l : List α) (k c : Nat) :
    (l.drop k).take c = [] ↔ c = 0 ∨ l.length ≤ k := by
  rw [List.take_eq_nil_iff, List.drop_eq_nil_iff]

theorem ceil_div_eq (n : Nat) (s : Int) (hs : 1 ≤ s) :
    ⌈(n : ℚ) / (s : ℚ)⌉ = ((n : Int) + s - 1) / s := by
  have hcast : (((n : Int) : ℚ)) = (n : ℚ) := Int.cast_natCast n
  rw [← hcast, Int.ceil_eq_iff]
  have hs' : (0 : ℚ) < s := by exact_mod_cast (by omega : (0 : Int) < s)
  have h1 := Int.ediv_mul_le ((n : Int) + s - 1) (by omega : s ≠ 0)
  have h2 := Int.lt_ediv_add_one_mul_self ((n : Int) + s - 1) (by omega : 0 < s)
  constructor
  · rw [lt_div_iff₀ hs']
    have : (((n : Int) + s - 1) / s - 1) * s < (n : Int) := by nlinarith
    exact_mod_cast this
  · rw [div_le_iff₀ hs']
    have : (n : Int) ≤ (((n : Int) + s - 1) / s) * s := by nlinarith
    exact_mod_cast this

theorem totalPages_eq (m : ProductManager) (page : Option Int) (s : Int) (hs : 1 ≤ s) :
    (m.getPaginatedProducts page (some s)).totalPages
      = some ⌈(m._products.length : ℚ) / (s : ℚ)⌉ := by
  have : s ≠ 0 := by omega
  simp [ProductManager.getPaginatedProducts, this]

/-- C9. `getPaginatedProducts` returns the right slice and counts: for a page
`p ≥ 1` and a page size `s ≥ 1` over `n` products, the products are the
catalog elements at indices `(p-1)*s` up to but excluding `min(p*s, n)`, in
catalog order; `totalPages` is `ceil(n / s)` and `currentPage` is `p`. The
page size defaults to 8 (and the page to 1); over 10 products page 2 returns
the last 2 products with `totalPages = 2` and `currentPage = 2`. -/
theorem getPaginatedProducts_slice (m : ProductManager) (p s : Int)
    (hp : 1 ≤ p) (hs : 1 ≤ s) :
    (m.getPaginatedProducts (some p) (some s)).products
      = (m._products.drop ((p - 1) * s).toNat).take s.toNat ∧
    ((m.getPaginatedProducts (some p) (some s)).products.length : Int)
      = max (min (p * s) m._products.length - (p - 1) * s) 0 ∧
    (∀ i : Nat, i < (m.getPaginatedProducts (some p) (some s)).products.length →
      (m.getPaginatedProducts (some p) (some s)).products[i]?
        = m._products[((p - 1) * s).toNat + i]?) ∧
    (m.getPaginatedProducts (some p) (some s)).totalPages
      = some ⌈(m._products.length : ℚ) / (s : ℚ)⌉ ∧
    (m.getPaginatedProducts (some p) (some s)).currentPage = p ∧
    m.getPaginatedProducts (some p) none = m.getPaginatedProducts (some p) (some 8) ∧
    m.getPaginatedProducts none (some s) = m.getPaginatedProducts (some 1) (some s) ∧
    (m._products.length = 10 →
      (m.getPaginatedProducts (some 2) none).products = m._products.drop 8 ∧
      (m.getPaginatedProducts (some 2) none).products.length = 2 ∧
      (m.getPaginatedProducts (some 2) none).totalPages = some 2 ∧
      (m.getPaginatedProducts (some 2) none).currentPage = 2) := by
  have hstart : 0 ≤ (p - 1) * s := by nlinarith
  have hprod : (m.getPaginatedProducts (some p) (some s)).products
      = (m._products.drop ((p - 1) * s).toNat).take s.toNat := by
    simp only [ProductManager.getPaginatedProducts, Option.getD_some]
    rw [slice_of_nonneg _ _ _ hstart (by omega)]
    congr 2
    omega
  refine ⟨hprod, ?_, ?_, totalPages_eq m _ s hs, rfl, rfl, rfl, ?_⟩
  · rw [hprod, List.length_take, List.length_drop]
    have hps : p * s = (p - 1) * s + s := by ring
    rw [hps]
    generalize (p - 1) * s = S at hstart
    omega
  · intro i hi
    rw [hprod] at hi ⊢
    rw [List.length_take] at hi
    rw [List.getElem?_take_of_lt (by omega), List.getElem?_drop]
  · intro h10
    have h8 : (1 : Int) ≤ 8 := by decide
    have hslice : (m.getPaginatedProducts (some 2) none).products = m._products.drop 8 := by
      simp only [ProductManager.getPaginatedProducts, Option.getD_some, Option.getD_none]
      rw [slice_of_nonneg _ _ _ (by decide) (by decide)]
      exact List.take_of_length_le (by simp [h10])
    refine ⟨hslice, ?_, ?_, rfl⟩
    · rw [hslice, List.length_drop, h10]
    · show (m.getPaginatedProducts (some 2) (some 8)).totalPages = some 2
      rw [totalPages_eq m _ 8 h8, ceil_div_eq _ _ h8, h10]
      rfl

/-- Witness for C9 on `tenProducts`: page 2 of size 8 holds the products at
indices 8 and 9, and page 2 of size 3 those at indices 3, 4, 5. -/
theorem getPaginatedProducts_slice_witness :
    (1 : Int) ≤ 2 ∧ (1 : Int) ≤ 3 ∧
    (tenProducts.getPaginatedProducts (some 2) none).products
      = [numbered 8, numbered 9] ∧
    (tenProducts.getPaginatedProducts (some 2) (some 3)).products
      = [numbered 3, numbered 4, numbered 5] :=
  ⟨by decide, by decide,
   ((getPaginatedProducts_slice tenProducts 2 8 (by decide) (by decide)).2.2.2.2.2.2.2
      rfl).1.trans rfl,
   (getPaginatedProducts_slice tenProducts 2 3 (by decide) (by decide)).1.trans rfl⟩

/-- C10, as stated, fails: over 10 products with page size 8, page -1 is
outside `1..2`, yet `slice(-16, -8)` counts from the end of the array and
returns the first two products. -/
theorem negative_page_not_empty :
    tenProducts._products.length = 10 ∧ (1 : Int) ≤ 8 ∧ ¬ ((1 : Int) ≤ -1) ∧
    (tenProducts.getPaginatedProducts (some (-1)) (some 8)).products
      = [numbered 0, numbered 1] ∧
    (tenProducts.getPaginatedProducts (some (-1)) (some 8)).products ≠ [] := by
  have h : (tenProducts.getPaginatedProducts (some (-1)) (some 8)).products
      = [numbered 0, numbered 1] := rfl
  exact ⟨rfl, by decide, by decide, h, by rw [h]; simp⟩

/-- C10, amended. For a page size `s ≥ 1` over `n` products and any integer
page `p`, the call returns (it cannot raise) with `totalPages = ceil(n / s)`;
the products list is empty when `p` is greater than the last page and when
`p = 0`; for a negative page it is empty exactly when `n ≤ |p| * s`. Over 10
products, page 5 with page size 8 is empty with `totalPages = 2`. -/
theorem getPaginatedProducts_out_of_range (m : ProductManager) (p s : Int) (hs : 1 ≤ s) :
    (m.getPaginatedProducts (some p) (some s)).totalPages
      = some ⌈(m._products.length : ℚ) / (s : ℚ)⌉ ∧
    (⌈(m._products.length : ℚ) / (s : ℚ)⌉ < p →
      (m.getPaginatedProducts (some p) (some s)).products = []) ∧
    (p = 0 → (m.getPaginatedProducts (some p) (some s)).products = []) ∧
    (p < 0 →
      ((m.getPaginatedProducts (some p) (some s)).products = []
        ↔ (m._products.length : Int) ≤ -p * s)) ∧
    (m._products.length = 10 →
      (m.getPaginatedProducts (some 5) (some 8)).products = [] ∧
      (m.getPaginatedProducts (some 5) (some 8)).totalPages = some 2) := by
  have hbeyond : ∀ (q t : Int), 1 ≤ t → ((m._products.length : Int) + t - 1) / t < q →
      (m.getPaginatedProducts (some q) (some t)).products = [] := by
    intro q t ht hlt
    have h2 := Int.lt_ediv_add_one_mul_self ((m._products.length : Int) + t - 1)
      (by omega : 0 < t)
    have hC : 0 ≤ ((m._products.length : Int) + t - 1) / t :=
      Int.ediv_nonneg (by omega) (by omega)
    have hn : (m._products.length : Int) ≤ (q - 1) * t := by nlinarith
    simp only [ProductManager.getPaginatedProducts, Option.getD_some]
    rw [slice_of_nonneg _ _ _ (by omega) (by omega), take_drop_eq_nil_iff]
    right
    omega
  refine ⟨totalPages_eq m _ s hs, ?_, ?_, ?_, ?_⟩
  · intro hlt
    rw [ceil_div_eq _ _ hs] at hlt
    exact hbeyond p s hs hlt
  · intro h0
    subst h0
    simp only [ProductManager.getPaginatedProducts, Option.getD_some, slice]
    rw [take_drop_eq_nil_iff]
    left
    have e1 : ((0 : Int) - 1) * s = -s := by ring
    have e2 : ((0 : Int) - 1) * s + s = 0 := by ring
    rw [e2, e1]
    omega
  · intro hneg
    have hP : p * s ≤ -s := by nlinarith
    have e1 : (p - 1) * s = p * s - s := by ring
    have e2 : (p - 1) * s + s = p * s := by ring
    have e3 : -p * s = -(p * s) := by ring
    simp only [ProductManager.getPaginatedProducts, Option.getD_some, slice]
    rw [take_drop_eq_nil_iff, e2, e1, e3]
    generalize p * s = P at hP
    omega
  · intro h10
    have h8 : (1 : Int) ≤ 8 := by decide
    refine ⟨hbeyond 5 8 h8 (by rw [h10]; decide), ?_⟩
    rw [totalPages_eq m _ 8 h8, ceil_div_eq _ _ h8, h10]
    rfl

/-- Witness for the amended C10 on `tenProducts` with page size 8: pages 5, 0
and -2 are empty. -/
theorem getPaginatedProducts_out_of_range_witness :
    (1 : Int) ≤ 8 ∧
    (tenProducts.getPaginatedProducts (some 5) (some 8)).products = [] ∧
    (tenProducts.getPaginatedProducts (some 0) (some 8)).products = [] ∧
    (tenProducts.getPaginatedProducts (some (-2)) (some 8)).products = [] :=
  ⟨by decide,
   ((getPaginatedProducts_out_of_range tenProducts 5 8 (by decide)).2.2.2.2 rfl).1,
   (getPaginatedProducts_out_of_range tenProducts 0 8 (by decide)).2.2.1 rfl,
   ((getPaginatedProducts_out_of_range tenProducts (-2) 8 (by decide)).2.2.2.1
      (by decide)).mpr (by decide)⟩

/-! ## Search over objects without getters -/

/-- A plain object (no getters) at the head of the catalog makes a search with
a non-empty category filter raise `TypeError`: `product.category` is
`undefined` there. -/
theorem findProduct_plain_object (toLowerCase : List Char → List Char)
    (m : ProductManager) (p : Product) (rest : List Product)
    (hm : m._products = p :: rest) (hp : p.hasPrototype = false)
    (q : String) (hcolon : ':' ∉ q.data) (hq : trim q.data ≠ []) :
    m.findProduct toLowerCase (some q) = .error .typeError := by
  have hne : q.data ≠ [] := by
    intro h
    rw [h] at hq
    exact hq rfl
  have hcat : p.category = none := by simp [Product.category, hp]
  obtain ⟨ch, tl, htrim⟩ := List.exists_cons_of_ne_nil hq
  simp [ProductManager.findProduct, hne, split_of_not_mem _ _ hcolon, hm, filterE,
    productMatches, partMatch, htrim, hcat]

/-- C8 fails on the code. On a catalog whose product is the plain object
reloaded from storage, and on a catalog holding a product created without a
category, `findProduct("Coffee:")` raises `TypeError` instead of returning the
matching products (none would match in the second catalog); with the empty
query the same catalogs are returned whole. This holds for every case mapping
`toLowerCase`. -/
theorem findProduct_raises_typeError (toLowerCase : List Char → List Char) :
    (⟨[reloadedKona], ⟨[]⟩⟩ : ProductManager).findProduct toLowerCase (some "Coffee:")
      = .error .typeError ∧
    (⟨[kona, uncategorised], ⟨[]⟩⟩ : ProductManager).findProduct toLowerCase
        (some "Coffee:")
      = .error .typeError ∧
    (⟨[kona, uncategorised], ⟨[]⟩⟩ : ProductManager).findProduct toLowerCase (some "")
      = .ok [kona, uncategorised] ∧
    reloadedKona._category = some "Coffee" ∧ reloadedKona.category = none := by
  refine ⟨rfl, rfl, rfl, rfl, rfl⟩

/-! ## Cart: `removeItem` -/

theorem setItem_setItem (s : LocalStorage) (key : String) (v w : JsonArray) :
    (s.setItem key v).setItem key w = s.setItem key w := by
  simp [LocalStorage.setItem, List.filter_filter]

/-- C17. `removeItem` removes the entries for `p` and nothing else: it never
raises; afterwards the cart has no entry for `p` and holds exactly the former
entries with another id, in their former order with their former quantities;
a cart without an entry for `p` keeps its entry list; calling it twice gives
the same cart and store as calling it once. -/
theorem removeItem_removes (c : ShoppingCart) (p : String) :
    (c.removeItem p).1 = .ok () ∧
    (c.removeItem p).2._items = c._items.filter (fun x => !(x.productUuid == p)) ∧
    ¬ hasEntry (c.removeItem p).2._items p ∧
    (∀ x, x ∈ (c.removeItem p).2._items ↔ x ∈ c._items ∧ x.productUuid ≠ p) ∧
    (c.removeItem p).2._items.Sublist c._items ∧
    (¬ hasEntry c._items p → (c.removeItem p).2._items = c._items) ∧
    ((c.removeItem p).2.removeItem p).2 = (c.removeItem p).2 ∧
    (c.removeItem p).2.localStorage.getItem "cart"
      = some (stringifyItems (c.removeItem p).2._items) := by
  have hitems := removeItem_items c p
  refine ⟨rfl, hitems, ?_, ?_, ?_, ?_, ?_, ?_⟩
  · rw [hitems]
    rintro ⟨x, hx, hxp⟩
    have := (List.mem_filter.mp hx).2
    simp [hxp] at this
  · intro x
    rw [hitems, List.mem_filter]
    simp
  · rw [hitems]
    exact List.filter_sublist _
  · intro hno
    rw [hitems]
    exact filter_ne_of_forall_ne _ _ (fun x hx hxp => hno ⟨x, hx, hxp⟩)
  · simp [ShoppingCart.removeItem, ShoppingCart._saveCart, setItem_setItem, List.filter_filter]
  · simp [ShoppingCart.removeItem, ShoppingCart._saveCart, getItem_setItem]

/-! ## Cart total under `addItem` -/

theorem jsAdd_comm (x y : Option ℚ) : jsAdd x y = jsAdd y x := by
  cases x <;> cases y <;> simp [jsAdd, add_comm]

theorem referenceTotal_append (l1 l2 : List CartItem) (products : List Product) :
    referenceTotal (l1 ++ l2) products
      = jsAdd (referenceTotal l1 products) (referenceTotal l2 products) := by
  induction l1 with
  | nil => simp [referenceTotal, zero_jsAdd]
  | cons x xs ih =>
    unfold referenceTotal at ih ⊢
    simp only [List.cons_append, List.map_cons, List.foldr_cons, ih, jsAdd_assoc]

theorem referenceTotal_cons (x : CartItem) (l : List CartItem) (products : List Product) :
    referenceTotal (x :: l) products
      = jsAdd (contribution products x) (referenceTotal l products) := by
  simp [referenceTotal]

theorem contribution_add (products : List Product) (p : String) (x a : Int) :
    contribution products ⟨p, x + a⟩
      = jsAdd (contribution products ⟨p, x⟩) (contribution products ⟨p, a⟩) := by
  unfold contribution
  rcases priceOf products p with _ | _ | price
  · simp [jsAdd]
  · simp [jsAdd, jsMul]
  · simp [jsAdd, jsMul, mul_add]

/-- C19. The cart total is additive under `addItem`: for `a > 0` the total
after `addItem(p, a)` is the total before plus the contribution of `a` units
of `p`, which is `a` times the price of the product of the list with id `p`
and 0 when the list has no such product; this holds whether an existing entry
was incremented or a new one appended. -/
theorem calculateTotal_addItem (c : ShoppingCart) (products : List Product)
    (p : String) (a : Int) (ha : 0 < a) :
    ((c.addItem p a).2.calculateTotal products).1
      = jsAdd (c.calculateTotal products).1 (contribution products ⟨p, a⟩) ∧
    ((∀ q ∈ products, q.uuid ≠ some p) →
      ((c.addItem p a).2.calculateTotal products).1 = (c.calculateTotal products).1) ∧
    (∀ product price total, products.find? (fun q => q.uuid == some p) = some product →
      product.price = some price → (c.calculateTotal products).1 = some total →
      ((c.addItem p a).2.calculateTotal products).1 = some (total + (a : ℚ) * price)) := by
  have hbefore : (c.calculateTotal products).1 = referenceTotal c._items products :=
    total_eq_reference c._items products c.localStorage
  have hafter : ((c.addItem p a).2.calculateTotal products).1
      = referenceTotal (c.addItem p a).2._items products :=
    total_eq_reference _ products _
  have hmain : ((c.addItem p a).2.calculateTotal products).1
      = jsAdd (c.calculateTotal products).1 (contribution products ⟨p, a⟩) := by
    rw [hafter, hbefore]
    by_cases hp : hasEntry c._items p
    · obtain ⟨pre, e, post, hl, hpre, he⟩ := hasEntry_split c._items p hp
      rw [addItem_items_of_split c p a ha pre post e hl hpre he, hl]
      have hce : contribution products e = contribution products ⟨p, e.amount⟩ := by
        rw [← he]
      rw [referenceTotal_append, referenceTotal_append, referenceTotal_cons,
        referenceTotal_cons, contribution_add, hce]
      generalize referenceTotal pre products = A
      generalize referenceTotal post products = B
      generalize contribution products ⟨p, e.amount⟩ = X
      generalize contribution products ⟨p, a⟩ = Y
      rw [jsAdd_assoc X Y B, jsAdd_comm Y B, ← jsAdd_assoc X B Y, ← jsAdd_assoc A _ Y]
    · rw [addItem_items_of_not_hasEntry c p a ha hp, referenceTotal_append,
        referenceTotal_cons]
      simp [referenceTotal, jsAdd_zero]
  refine ⟨hmain, ?_, ?_⟩
  · intro hmissing
    have hfind : products.find? (fun q => q.uuid == some p) = none := by
      rw [List.find?_eq_none]
      intro q hq
      simpa using hmissing q hq
    rw [hmain]
    simp [contribution, priceOf, hfind, jsAdd_zero]
  · intro product price total hfind hprice htotal
    rw [hmain, htotal]
    simp [contribution, priceOf, hfind, hprice, jsAdd, jsMul, mul_comm]

/-- Witness for C19: on `sampleCart` with `sampleProducts`, adding 2 of "tea"
(priced 5/2) raises the total from 5/2 to 15/2, and adding 2 of "mug" (no
such product) leaves it at 5/2. -/
theorem calculateTotal_addItem_witness :
    (0 : Int) < 2 ∧
    ((sampleCart.addItem "tea" 2).2.calculateTotal sampleProducts).1 = some (15 / 2) ∧
    ((sampleCart.addItem "mug" 2).2.calculateTotal sampleProducts).1 = some (5 / 2) :=
  ⟨by decide,
   ((calculateTotal_addItem sampleCart sampleProducts "tea" 2 (by decide)).1).trans
     (by simp [sampleCart, sampleProducts, ShoppingCart.calculateTotal, contribution,
           priceOf, Product.uuid, Product.price, jsAdd, jsMul]; norm_num),
   ((calculateTotal_addItem sampleCart sampleProducts "mug" 2 (by decide)).2.1
      (by simp [sampleProducts, Product.uuid])).trans
     (by simp [sampleCart, sampleProducts, ShoppingCart.calculateTotal,
           Product.uuid, Product.price, jsAdd, jsMul])⟩

/-- Witness for C17 on `sampleCart`: removing "mug" leaves the "tea" entry,
removing the absent "jar" leaves the list as it was. -/
theorem removeItem_removes_witness :
    (sampleCart.removeItem "mug").2._items = [⟨"tea", 1⟩] ∧
    ¬ hasEntry sampleCart._items "jar" ∧
    (sampleCart.removeItem "jar").2._items = sampleCart._items :=
  ⟨(removeItem_removes sampleCart "mug").2.1.trans (by decide),
   by simp [hasEntry, sampleCart],
   (removeItem_removes sampleCart "jar").2.2.2.2.2.1 (by simp [hasEntry, sampleCart])⟩

/-! ## Search without a colon -/

/-- A name part that is `undefined` and one that is the empty string give the
same `filter` callback. -/
theorem productMatches_none_eq_nil (toLowerCase : List Char → List Char)
    (categoryPart : Option (List Char)) (p : Product) :
    productMatches toLowerCase categoryPart none p
      = productMatches toLowerCase categoryPart (some []) p := by
  simp [productMatches, partMatch]

/-- The `filter` callback of a search on the category alone reads the
category and nothing else. -/
theorem productMatches_category_only (toLowerCase : List Char → List Char)
    (cf : List Char) (p : Product) :
    productMatches toLowerCase (some cf) none p = partMatch toLowerCase (some cf) p.category := by
  unfold productMatches
  cases partMatch toLowerCase (some cf) p.category with
  | error e => rfl
  | ok b => simp [partMatch]

theorem filterE_congr {α : Type} (f g : α → Except JSError Bool) (l : List α)
    (h : ∀ x ∈ l, f x = g x) : filterE f l = filterE g l := by
  induction l with
  | nil => rfl
  | cons x xs ih =>
    have hx := h x (List.mem_cons_self _ _)
    have hxs := ih (fun y hy => h y (List.mem_cons_of_mem _ hy))
    simp only [filterE, hx, hxs]

/-- A search query without a colon, on every catalog and for every case
mapping: for a non-empty query `q` without ':', `findProduct(q)` equals
`findProduct(q + ":")`; the outcome is that of filtering on the category with
the trimmed query, the names are not read; on a catalog whose products expose
a category the result is exactly the products whose category contains the
trimmed query ignoring case, so a product whose name contains `q` but whose
category does not is excluded. -/
theorem findProduct_without_colon (toLowerCase : List Char → List Char)
    (m : ProductManager) (q : String)
    (hq : q.data ≠ []) (hcolon : ':' ∉ q.data) :
    m.findProduct toLowerCase (some q) = m.findProduct toLowerCase (some (q ++ ":")) ∧
    m.findProduct toLowerCase (some q)
      = filterE (fun p => partMatch toLowerCase (some (trim q.data)) p.category)
          m._products ∧
    ((∀ p ∈ m._products, p.category.isSome) →
      m.findProduct toLowerCase (some q)
        = .ok (m._products.filter fun p =>
            (trim q.data).isEmpty || fieldContains toLowerCase p.category (trim q.data))) ∧
    ((∀ p ∈ m._products, p.category.isSome) → trim q.data ≠ [] →
      ∀ result p, m.findProduct toLowerCase (some q) = .ok result →
        fieldContains toLowerCase p.category (trim q.data) = false → p ∉ result) := by
  have hsplit1 : split ':' q.data = [q.data] := split_of_not_mem _ _ hcolon
  have hsplit2 : split ':' (q ++ ":").data = [q.data, []] := by
    have : (q ++ ":").data = q.data ++ ':' :: [] := by simp
    rw [this, split_append_sep _ _ _ hcolon]
    rfl
  have hq2 : (q ++ ":").data ≠ [] := by simp
  have h1 : m.findProduct toLowerCase (some q)
      = filterE (productMatches toLowerCase (some (trim q.data)) none) m._products := by
    simp [ProductManager.findProduct, hq, hsplit1]
  have h2 : m.findProduct toLowerCase (some (q ++ ":"))
      = filterE (productMatches toLowerCase (some (trim q.data)) (some (trim [])))
          m._products := by
    simp only [ProductManager.findProduct, hq2, if_false, hsplit2, List.map_cons,
      List.map_nil]
    rfl
  have hcat : m.findProduct toLowerCase (some q)
      = filterE (fun p => partMatch toLowerCase (some (trim q.data)) p.category)
          m._products := by
    rw [h1]
    exact filterE_congr _ _ _ (fun p _ => productMatches_category_only toLowerCase _ p)
  have hfilter : (∀ p ∈ m._products, p.category.isSome) →
      m.findProduct toLowerCase (some q)
        = .ok (m._products.filter fun p =>
            (trim q.data).isEmpty || fieldContains toLowerCase p.category (trim q.data)) := by
    intro hp
    rw [hcat]
    exact filterE_eq_filter _ _ _
      (fun p hmem => partMatch_some toLowerCase _ _ (fun _ => hp p hmem))
  refine ⟨?_, hcat, hfilter, ?_⟩
  · rw [h1, h2]
    exact filterE_congr _ _ _ (fun p _ => productMatches_none_eq_nil toLowerCase _ p)
  · intro hp htrim result p hres hno hmem
    rw [hfilter hp] at hres
    simp only [Except.ok.injEq] at hres
    subst hres
    have := (List.mem_filter.mp hmem).2
    simp [hno, htrim] at this

/-- Search without a colon on `sampleManager` with the ASCII case mapping:
"coffee" selects the two products of a coffee category and not the mug whose
name contains "Coffee", as "coffee:" does. -/
theorem findProduct_without_colon_example :
    "coffee".data ≠ [] ∧ ':' ∉ "coffee".data ∧
    sampleManager.findProduct lowerAscii (some "coffee") = .ok [kona, decaf] ∧
    sampleManager.findProduct lowerAscii (some "coffee")
      = sampleManager.findProduct lowerAscii (some ("coffee" ++ ":")) :=
  ⟨by decide, by decide,
   ((findProduct_without_colon lowerAscii sampleManager "coffee" (by decide)
      (by decide)).2.2.1 (by decide)).trans (congrArg Except.ok (by decide)),
   (findProduct_without_colon lowerAscii sampleManager "coffee" (by decide) (by decide)).1⟩

/-- C20 fails on the code. On a catalog whose product is the plain object
reloaded from storage, and on a catalog holding a product created without a
category, `findProduct("Coffee")` raises `TypeError` instead of returning the
products whose category contains "Coffee" (the reloaded object stores the
category "Coffee"); `findProduct("Coffee:")` raises on the same catalogs, so
the two calls still agree. This holds for every case mapping `toLowerCase`. -/
theorem findProduct_bare_query_raises (toLowerCase : List Char → List Char) :
    (⟨[reloadedKona], ⟨[]⟩⟩ : ProductManager).findProduct toLowerCase (some "Coffee")
      = .error .typeError ∧
    (⟨[kona, uncategorised], ⟨[]⟩⟩ : ProductManager).findProduct toLowerCase (some "Coffee")
      = .error .typeError ∧
    (⟨[reloadedKona], ⟨[]⟩⟩ : ProductManager).findProduct toLowerCase (some "Coffee")
      = (⟨[reloadedKona], ⟨[]⟩⟩ : ProductManager).findProduct toLowerCase
          (some ("Coffee" ++ ":")) ∧
    reloadedKona._category = some "Coffee" ∧ reloadedKona.category = none ∧
    uncategorised.category = none :=
  ⟨rfl, rfl, rfl, rfl, rfl, rfl⟩

/-! ## Pagination partitions the catalog -/

theorem page_products (m : ProductManager) (i S : Nat) (hS : 1 ≤ S) :
    (m.getPaginatedProducts (some ((i : Int) + 1)) (some (S : Int))).products
      = (m._products.drop (i * S)).take S := by
  have hstart : (0 : Int) ≤ ((i : Int) + 1 - 1) * (S : Int) := by
    have : ((i : Int) + 1 - 1) * (S : Int) = ((i * S : Nat) : Int) := by push_cast; ring
    omega
  simp only [ProductManager.getPaginatedProducts, Option.getD_some]
  rw [slice_of_nonneg _ _ _ hstart (by omega)]
  have e1 : (((i : Int) + 1 - 1) * (S : Int)).toNat = i * S := by
    have : ((i : Int) + 1 - 1) * (S : Int) = ((i * S : Nat) : Int) := by push_cast; ring
    rw [this]; exact Int.toNat_ofNat _
  have e2 : (((i : Int) + 1 - 1) * (S : Int) + (S : Int)
      - ((i : Int) + 1 - 1) * (S : Int)).toNat = S := by
    have : ((i : Int) + 1 - 1) * (S : Int) + (S : Int)
        - ((i : Int) + 1 - 1) * (S : Int) = (S : Int) := by ring
    rw [this]; exact Int.toNat_ofNat _
  rw [e1, e2]

theorem chunks_flatten {α : Type} (l : List α) (S k : Nat) :
    ((List.range k).map fun i => (l.drop (i * S)).take S).flatten = l.take (k * S) := by
  induction k with
  | zero => simp
  | succ k ih =>
    rw [List.range_succ, List.map_append, List.flatten_append, ih, Nat.succ_mul,
      List.take_add]
    simp

theorem lt_ceil_div_iff (n j S : Nat) (hS : 1 ≤ S) :
    (j : Int) < ⌈(n : ℚ) / ((S : Int) : ℚ)⌉ ↔ j * S < n := by
  have hS' : (0 : ℚ) < ((S : Int) : ℚ) := by
    have : (0 : Int) < (S : Int) := by omega
    exact_mod_cast this
  rw [Int.lt_ceil, lt_div_iff₀ hS']
  constructor
  · intro h
    have : ((j * S : Nat) : ℚ) < (n : ℚ) := by push_cast; exact_mod_cast h
    exact_mod_cast this
  · intro h
    have : ((j * S : Nat) : ℚ) < (n : ℚ) := by exact_mod_cast h
    push_cast at this
    exact_mod_cast this

theorem lastPage_eq (m : ProductManager) (S : Nat) (hS : 1 ≤ S) :
    (m.lastPage (S : Int) : Int) = ⌈(m._products.length : ℚ) / ((S : Int) : ℚ)⌉ := by
  have hs : (1 : Int) ≤ (S : Int) := by omega
  unfold ProductManager.lastPage
  rw [totalPages_eq m none (S : Int) hs]
  simp only [Option.getD_some]
  apply Int.toNat_of_nonneg
  rw [ceil_div_eq _ _ hs]
  exact Int.ediv_nonneg (by omega) (by omega)

theorem lt_lastPage_iff (m : ProductManager) (j S : Nat) (hS : 1 ≤ S) :
    j < m.lastPage (S : Int) ↔ j * S < m._products.length := by
  rw [← lt_ceil_div_iff _ j S hS, ← lastPage_eq m S hS]
  omega

/-- C18. Pagination partitions the catalog: for a page size `s ≥ 1`,
concatenating the product lists of pages `1 .. ceil(n/s)` in that order gives
exactly the catalog; every page before the last has exactly `s` products and
the last page has between 1 and `s` products. -/
theorem pages_partition (m : ProductManager) (s : Int) (hs : 1 ≤ s) :
    (m.lastPage s : Int) = ⌈(m._products.length : ℚ) / (s : ℚ)⌉ ∧
    (m.pages s).flatten = m._products ∧
    (∀ i : Nat, i + 1 < m.lastPage s →
      ((m.getPaginatedProducts (some ((i : Int) + 1)) (some s)).products.length : Int) = s) ∧
    (0 < m.lastPage s →
      1 ≤ (m.getPaginatedProducts (some (m.lastPage s : Int)) (some s)).products.length ∧
      ((m.getPaginatedProducts (some (m.lastPage s : Int)) (some s)).products.length : Int)
        ≤ s) := by
  obtain ⟨S, rfl⟩ := Int.eq_ofNat_of_zero_le (by omega : (0 : Int) ≤ s)
  have hS : 1 ≤ S := by omega
  refine ⟨lastPage_eq m S hS, ?_, ?_, ?_⟩
  · unfold ProductManager.pages
    have hfun : (fun i : Nat =>
        (m.getPaginatedProducts (some ((i : Int) + 1)) (some (S : Int))).products)
        = fun i => (m._products.drop (i * S)).take S := by
      funext i
      exact page_products m i S hS
    rw [hfun, chunks_flatten]
    apply List.take_of_length_le
    have := (lt_lastPage_iff m (m.lastPage (S : Int)) S hS).not.mp (lt_irrefl _)
    omega
  · intro i hi
    rw [page_products m i S hS, List.length_take, List.length_drop]
    have := (lt_lastPage_iff m (i + 1) S hS).mp hi
    rw [Nat.succ_mul] at this
    omega
  · intro hpos
    obtain ⟨k, hk⟩ : ∃ k, m.lastPage (S : Int) = k + 1 := ⟨m.lastPage (S : Int) - 1, by omega⟩
    have hlt := (lt_lastPage_iff m k S hS).mp (by omega)
    rw [hk]
    have hcast : ((k + 1 : Nat) : Int) = (k : Int) + 1 := by push_cast; rfl
    rw [hcast, page_products m k S hS, List.length_take, List.length_drop]
    omega

/-- Witness for C18 on `tenProducts` with page size 4: three pages, of 4, 4
and 2 products, whose concatenation is the catalog. -/
theorem pages_partition_witness :
    (1 : Int) ≤ 4 ∧
    (tenProducts.pages 4).flatten = tenProducts._products ∧
    (tenProducts.pages 4).map List.length = [4, 4, 2] :=
  ⟨by decide, (pages_partition tenProducts 4 (by decide)).2.1,
   by
    have h := (pages_partition tenProducts 4 (by decide)).1
    have h3 : tenProducts.lastPage 4 = 3 := by
      have e : ⌈((tenProducts._products.length : ℚ)) / ((4 : Int) : ℚ)⌉ = 3 := by
        rw [ceil_div_eq _ _ (by decide)]; rfl
      rw [e] at h
      exact_mod_cast h
    unfold ProductManager.pages
    rw [h3]
    rfl⟩

/-! ## Catalog: `updateProduct` -/

theorem orElse_none_right {α : Type} (x : Option α) : (x <|> none) = x := by
  cases x <;> rfl

theorem not_hasProduct_iff (m : ProductManager) (u : String) :
    ¬ hasProduct m u ↔ ∀ x ∈ m._products, (x.uuid == some u) = false := by
  simp [hasProduct]

theorem hasProduct_split (m : ProductManager) (u : String) (h : hasProduct m u) :
    ∃ pre e post, m._products = pre ++ e :: post ∧
      (∀ x ∈ pre, x.uuid ≠ some u) ∧ e.uuid = some u := by
  cases hfi : findIndex (fun p : Product => p.uuid == some u) m._products with
  | none =>
    exact absurd h ((not_hasProduct_iff m u).mpr ((findIndex_eq_none_iff _ _).mp hfi))
  | some i =>
    obtain ⟨pre, e, post, hl, -, hpre, he⟩ := findIndex_eq_some _ _ _ hfi
    exact ⟨pre, e, post, hl, fun x hx => by simpa using hpre x hx, by simpa using he⟩

/-- The record that `createFromObject` sees in `updateProduct`: the spread of
the existing product brings only underscore keys, so the recognised keys are
those of the update data, with `uuid` forced. -/
theorem createFromObject_spread (element : Option Product) (d : PlainObject)
    (u r : String) :
    Product.createFromObject
        (spread (spread (ownPropertiesAt element) d)
          (record (some u) none none none none none)) r
      = Product.createFromObject
          (record (some u) d.name d.description d.price d.image d.category) r := by
  cases element <;>
    simp [Product.createFromObject, spread, record, ownPropertiesAt, PlainObject.empty,
      Product.ownProperties, orElse_none_right]

/-- The outcome of `updateProduct` when the product is found. -/
theorem updateProduct_of_split (m : ProductManager) (u : String) (d : PlainObject)
    (r : String) (pre post : List Product) (e : Product)
    (hl : m._products = pre ++ e :: post)
    (hpre : ∀ x ∈ pre, x.uuid ≠ some u) (he : e.uuid = some u) :
    (m.updateProduct u d r).1
      = .ok (Product.createFromObject
          (record (some u) d.name d.description d.price d.image d.category) r) ∧
    (m.updateProduct u d r).2._products
      = pre ++ Product.createFromObject
          (record (some u) d.name d.description d.price d.image d.category) r :: post ∧
    (m.updateProduct u d r).2.localStorage.getItem "products"
      = some (stringifyProducts (m.updateProduct u d r).2._products) := by
  have hfi : findIndex (fun p : Product => p.uuid == some u) m._products
      = some pre.length := by
    rw [hl]
    exact findIndex_split _ pre post e (fun x hx => by simpa using hpre x hx)
      (by simpa using he)
  simp only [ProductManager.updateProduct, hfi, createFromObject_spread,
    ProductManager._saveProducts, getItem_setItem, true_and]
  rw [hl]
  simp

theorem updateProduct_of_not_hasProduct (m : ProductManager) (u : String)
    (d : PlainObject) (r : String) (h : ¬ hasProduct m u) :
    m.updateProduct u d r = (.error ⟨"Producto no encontrado"⟩, m) := by
  have hfi : findIndex (fun p : Product => p.uuid == some u) m._products = none :=
    (findIndex_eq_none_iff _ _).mpr ((not_hasProduct_iff m u).mp h)
  simp [ProductManager.updateProduct, hfi]

/-- C16. `updateProduct` on a missing id fails atomically: when no product of
the catalog has id `u` (as its `uuid` getter reads), the call raises
`ProductException` for every record and leaves the catalog and the store
exactly as they were; when some product has id `u`, the call does not raise
and returns a product. -/
theorem updateProduct_missing (m : ProductManager) (u : String) (d : PlainObject)
    (r : String) :
    (¬ hasProduct m u →
      m.updateProduct u d r = (.error ⟨"Producto no encontrado"⟩, m)) ∧
    (hasProduct m u → ∃ product, (m.updateProduct u d r).1 = .ok product) ∧
    ((∃ e, (m.updateProduct u d r).1 = .error e) ↔ ¬ hasProduct m u) := by
  refine ⟨updateProduct_of_not_hasProduct m u d r, ?_, ?_⟩
  · intro h
    obtain ⟨pre, e, post, hl, hpre, he⟩ := hasProduct_split m u h
    exact ⟨_, (updateProduct_of_split m u d r pre post e hl hpre he).1⟩
  · by_cases h : hasProduct m u
    · obtain ⟨pre, e, post, hl, hpre, he⟩ := hasProduct_split m u h
      simp [(updateProduct_of_split m u d r pre post e hl hpre he).1, h]
    · simp [updateProduct_of_not_hasProduct m u d r h, h]

/-- Witness for C16 on `sampleManager`: updating the absent id "p9" raises
and changes nothing; updating "p2" does not raise. -/
theorem updateProduct_missing_witness :
    ¬ hasProduct sampleManager "p9" ∧
    sampleManager.updateProduct "p9" (record none (some "Cup") none none none none) "r"
      = (.error ⟨"Producto no encontrado"⟩, sampleManager) ∧
    hasProduct sampleManager "p2" ∧
    ∃ product, (sampleManager.updateProduct "p2"
      (record none (some "Cup") none none none none) "r").1 = .ok product :=
  ⟨by simp [hasProduct, sampleManager, kona, coffeeMug, decaf, Product.uuid],
   (updateProduct_missing sampleManager "p9" _ "r").1
     (by simp [hasProduct, sampleManager, kona, coffeeMug, decaf, Product.uuid]),
   ⟨coffeeMug, by simp [sampleManager], rfl⟩,
   (updateProduct_missing sampleManager "p2" _ "r").2.1
     ⟨coffeeMug, by simp [sampleManager], rfl⟩⟩

/-- C11 fails on the code. On `sampleManager`, `updateProduct("p1", {price: 60})`
returns a product with id "p1" and price 60 whose name, description, image
and category are `undefined`, although the existing product has them and the
update data does not supply them; the catalog keeps its length, holds the
returned product at the old index and keeps the other products. -/
theorem updateProduct_drops_fields :
    kona.name = some "Royal Kona" ∧ priceOnly.name = none ∧
    (sampleManager.updateProduct "p1" priceOnly "r").1
      = .ok ⟨true, "p1", none, none, some 60, none, none⟩ ∧
    (sampleManager.updateProduct "p1" priceOnly "r").2._products
      = [⟨true, "p1", none, none, some 60, none, none⟩, coffeeMug, decaf] ∧
    ((sampleManager.updateProduct "p1" priceOnly "r").2.getProductById "p1").map Product.name
      = some none :=
  ⟨rfl, rfl, rfl, rfl, rfl⟩

/-! ## Catalog: `createProduct` and `deleteProduct` -/

theorem createProduct_eq (m : ProductManager) (d : PlainObject) (r : String) :
    (m.createProduct d r).1 = .ok (Product.createFromObject d r) ∧
    (m.createProduct d r).2._products = m._products ++ [Product.createFromObject d r] ∧
    (m.createProduct d r).2.localStorage.getItem "products"
      = some (stringifyProducts (m.createProduct d r).2._products) := by
  simp [ProductManager.createProduct, ProductManager._saveProducts, getItem_setItem]

theorem deleteProduct_products (m : ProductManager) (u : String) :
    (m.deleteProduct u).2._products
      = m._products.filter (fun p => !(p.uuid == some u)) := by
  simp [ProductManager.deleteProduct, ProductManager._saveProducts]

/-- C13 fails on the code. `createFromObject` builds the product with the
constructor and validates nothing: on `sampleManager`, `createProduct` with a
record that has no name and the price -5 does not raise, returns a product
whose name is `undefined` and whose price is -5, and appends it to the
catalog; the empty record gives a product with no field at all. The setter
of the class rejects both values. -/
theorem createProduct_accepts_invalid :
    (sampleManager.createProduct invalidRecord "fresh").1
      = .ok ⟨true, "fresh", none, some "A mug", some (-5), some "plain.jpg", some "Kitchen"⟩ ∧
    (sampleManager.createProduct invalidRecord "fresh").2._products
      = [kona, coffeeMug, decaf,
         ⟨true, "fresh", none, some "A mug", some (-5), some "plain.jpg", some "Kitchen"⟩] ∧
    Product.createFromObject PlainObject.empty "fresh"
      = ⟨true, "fresh", none, none, none, none, none⟩ ∧
    (kona.setName none).1 = .error ⟨"El nombre no puede estar vacío"⟩ ∧
    (kona.setPrice (.number (.finite (-5)))).1
      = .error ⟨"El precio debe ser un número positivo"⟩ :=
  ⟨rfl, rfl, rfl, rfl, rfl⟩

/-! ## Round trip through storage -/

/-- Parsing what `JSON.stringify` wrote for a product gives back its own
properties on an object without getters. -/
theorem parseProduct_toJson (p : Product) :
    parseProduct p.toJson = some { p with hasPrototype := false } := by
  obtain ⟨hasPrototype, uuid, name, description, price, image, category⟩ := p
  cases name <;> cases description <;> cases price <;> cases image <;> cases category <;> rfl

theorem parseAll_map {α : Type} (parse : JsonObject → Option α) (toJson : α → JsonObject)
    (g : α → α) (h : ∀ x, parse (toJson x) = some (g x)) (l : List α) :
    parseAll parse (l.map toJson) = some (l.map g) := by
  induction l with
  | nil => rfl
  | cons x xs ih => simp [parseAll, h, ih]

theorem parseItem_stringify (item : CartItem) :
    parseItem [("productUuid", JsonPrim.str item.productUuid),
      ("amount", JsonPrim.num item.amount)] = some item := by
  have h1 : jsonGet [("productUuid", JsonPrim.str item.productUuid),
      ("amount", JsonPrim.num item.amount)] "productUuid"
      = some (JsonPrim.str item.productUuid) := rfl
  have h2 : jsonGet [("productUuid", JsonPrim.str item.productUuid),
      ("amount", JsonPrim.num item.amount)] "amount"
      = some (JsonPrim.num item.amount) := rfl
  simp [parseItem, h1, h2]

/-- The cart survives the round trip: saving and loading gives the same
entries in the same order. -/
theorem cart_reload (c : ShoppingCart) :
    c.reload = some c._saveCart ∧ c._saveCart._items = c._items := by
  refine ⟨?_, rfl⟩
  have hparse : parseAll parseItem (stringifyItems c._items) = some c._items := by
    have := parseAll_map parseItem
      (fun item : CartItem => [("productUuid", JsonPrim.str item.productUuid),
        ("amount", JsonPrim.num item.amount)]) id parseItem_stringify c._items
    simpa [stringifyItems] using this
  simp [ShoppingCart.reload, ShoppingCart.new, ShoppingCart._saveCart, getItem_setItem,
    hparse]

/-- A non-empty catalog after the round trip: the same own properties at the
same positions, on objects without getters. -/
theorem catalog_reload (m : ProductManager) (randomUUID : Nat → String)
    (h : m._products ≠ []) :
    m.reload randomUUID
      = some ⟨m._products.map (fun p => { p with hasPrototype := false }),
          m._saveProducts.localStorage⟩ := by
  have hparse : parseAll parseProduct (stringifyProducts m._products)
      = some (m._products.map (fun p => { p with hasPrototype := false })) :=
    parseAll_map parseProduct Product.toJson _ parseProduct_toJson m._products
  simp [ProductManager.reload, ProductManager.new, ProductManager._saveProducts,
    getItem_setItem, hparse, h]

/-- On a reloaded catalog no lookup by id succeeds. -/
theorem getProductById_reload (m : ProductManager) (randomUUID : Nat → String)
    (h : m._products ≠ []) (reloaded : ProductManager)
    (hr : m.reload randomUUID = some reloaded) (u : String) :
    reloaded.getProductById u = none := by
  rw [catalog_reload m randomUUID h] at hr
  simp only [Option.some.injEq] at hr
  subst hr
  simp [ProductManager.getProductById, List.find?_eq_none, Product.uuid]

/-- C12 fails on the code for the catalog. Saving `sampleManager` and loading
it as the constructor does gives objects that keep the stored properties
(`_uuid`, `_name`, ...) but have no getters: `uuid`, `name` and `price` read
`undefined` at every position and `getProductById("p1")`, which found the
product before, finds nothing. The cart survives the same round trip. -/
theorem catalog_round_trip_loses_getters :
    sampleManager.getProductById "p1" = some kona ∧
    (sampleManager.reload sampleUUID).map (fun m => m._products)
      = some [reloadedKona, { coffeeMug with hasPrototype := false },
          { decaf with hasPrototype := false }] ∧
    (sampleManager.reload sampleUUID).map (fun m => m.getProductById "p1") = some none ∧
    (sampleManager.reload sampleUUID).map (fun m => m._products.map Product.uuid)
      = some [none, none, none] ∧
    (sampleManager.reload sampleUUID).map (fun m => m._products.map Product.name)
      = some [none, none, none] ∧
    (sampleManager.reload sampleUUID).map (fun m => m._products.map Product.price)
      = some [none, none, none] ∧
    (sampleManager.reload sampleUUID).map (fun m => m._products.map Product._uuid)
      = some ["p1", "p2", "p3"] ∧
    sampleCart.reload = some sampleCart._saveCart := by
  have h := catalog_reload sampleManager sampleUUID (by decide)
  refine ⟨rfl, ?_, ?_, ?_, ?_, ?_, ?_, (cart_reload sampleCart).1⟩ <;> rw [h] <;> rfl

/-- The seeding path builds `Product` instances, and an empty catalog does not
survive the round trip: loading it seeds the three sample products. -/
theorem seeding_builds_instances :
    (ProductManager.new ⟨[]⟩ sampleUUID).map
        (fun m => m._products.map Product.hasPrototype) = some [true, true, true] ∧
    (ProductManager.new ⟨[]⟩ sampleUUID).map (fun m => m._products.map Product.uuid)
      = some [some "u", some "uu", some "uuu"] ∧
    ((⟨[], ⟨[]⟩⟩ : ProductManager).reload sampleUUID).map (fun m => m._products.length)
      = some 3 :=
  ⟨rfl, rfl, rfl⟩

/-! ## Product setters -/

theorem trim_eq_nil_iff (l : List Char) : trim l = [] ↔ ∀ ch ∈ l, isTrimmed ch = true := by
  unfold trim
  rw [List.reverse_eq_nil_iff, List.dropWhile_eq_nil_iff]
  constructor
  · intro h
    by_contra hne
    have hdrop : l.dropWhile isTrimmed ≠ [] := by
      intro h0
      exact hne (List.dropWhile_eq_nil_iff.mp h0)
    obtain ⟨x, rest, hx⟩ := List.exists_cons_of_ne_nil hdrop
    have hhead : isTrimmed x = false := by
      have := List.head_dropWhile_not isTrimmed l hdrop
      simpa [hx] using this
    have := h x (by rw [hx]; simp)
    rw [hhead] at this
    exact Bool.false_ne_true this
  · intro h x hx
    rw [List.dropWhile_eq_nil_iff.mpr h] at hx
    simp at hx

theorem invalidText_iff (v : String) :
    invalidText (some v) = true ↔ ∀ ch ∈ v.data, isTrimmed ch = true := by
  simp only [invalidText, Bool.or_eq_true, decide_eq_true_eq, trim_eq_nil_iff]
  constructor
  · rintro (h | h)
    · subst h
      intro ch hch
      simp at hch
    · exact h
  · intro h
    exact Or.inr h

theorem invalidText_of_visible (v : String) (h : ∃ ch ∈ v.data, isTrimmed ch = false) :
    invalidText (some v) = false := by
  rw [← Bool.not_eq_true, invalidText_iff]
  intro hall
  obtain ⟨ch, hch, hf⟩ := h
  rw [hall ch hch] at hf
  exact Bool.noConfusion hf

theorem setPrice_of_invalid (p : Product) (value : JSValue)
    (h : isNaN value = true ∨ notAbove0 (toNumber value) = true) :
    p.setPrice value = (.error ⟨"El precio debe ser un número positivo"⟩, p) := by
  rcases h with h | h <;> simp [Product.setPrice, h]

/-- What the setters do on a `Product` instance. A string with at least one
character that `trim` keeps is accepted by the setters of name, description,
image and category: the getter then returns it and only that field changed.
A positive number is accepted by the price setter and the getter then returns
it. An empty or all-whitespace string, `undefined`, a price whose numeric
value is `NaN` and a price whose numeric value is `≤ 0` make the setter raise
`ProductException` and leave every field of the product as it was. -/
theorem setters_validate (p : Product) (hp : p.hasPrototype = true) :
    (∀ v : String, (∃ ch ∈ v.data, isTrimmed ch = false) →
      (p.setName (some v) = (.ok (), { p with _name := some v }) ∧
        (p.setName (some v)).2.name = some v) ∧
      (p.setDescription (some v) = (.ok (), { p with _description := some v }) ∧
        (p.setDescription (some v)).2.description = some v) ∧
      (p.setImage (some v) = (.ok (), { p with _image := some v }) ∧
        (p.setImage (some v)).2.image = some v) ∧
      (p.setCategory (some v) = (.ok (), { p with _category := some v }) ∧
        (p.setCategory (some v)).2.category = some v)) ∧
    (∀ v : String, (∀ ch ∈ v.data, isTrimmed ch = true) →
      p.setName (some v) = (.error ⟨"El nombre no puede estar vacío"⟩, p) ∧
      p.setDescription (some v) = (.error ⟨"La descripción no puede estar vacía"⟩, p) ∧
      p.setImage (some v) = (.error ⟨"La URL de la imagen no puede estar vacía"⟩, p) ∧
      p.setCategory (some v) = (.error ⟨"La categoría no puede estar vacía"⟩, p)) ∧
    (p.setName none = (.error ⟨"El nombre no puede estar vacío"⟩, p) ∧
      p.setDescription none = (.error ⟨"La descripción no puede estar vacía"⟩, p) ∧
      p.setImage none = (.error ⟨"La URL de la imagen no puede estar vacía"⟩, p) ∧
      p.setCategory none = (.error ⟨"La categoría no puede estar vacía"⟩, p)) ∧
    (∀ x : ℚ, 0 < x →
      p.setPrice (.number (.finite x)) = (.ok (), { p with _price := some x }) ∧
      (p.setPrice (.number (.finite x))).2.price = some x) ∧
    (∀ x : ℚ, x ≤ 0 →
      p.setPrice (.number (.finite x))
        = (.error ⟨"El precio debe ser un número positivo"⟩, p)) ∧
    p.setPrice (.number .nan) = (.error ⟨"El precio debe ser un número positivo"⟩, p) ∧
    p.setPrice .undefined = (.error ⟨"El precio debe ser un número positivo"⟩, p) ∧
    (∀ value : JSValue, isNaN value = true ∨ notAbove0 (toNumber value) = true →
      p.setPrice value = (.error ⟨"El precio debe ser un número positivo"⟩, p)) := by
  refine ⟨?_, ?_, ⟨rfl, rfl, rfl, rfl⟩, ?_, ?_, ?_, ?_, setPrice_of_invalid p⟩
  · intro v hv
    have h := invalidText_of_visible v hv
    simp [Product.setName, Product.setDescription, Product.setImage, Product.setCategory,
      h, Product.name, Product.description, Product.image, Product.category, hp]
  · intro v hv
    have h := (invalidText_iff v).mpr hv
    simp [Product.setName, Product.setDescription, Product.setImage, Product.setCategory, h]
  · intro x hx
    have hnot : ¬ x ≤ 0 := not_le.mpr hx
    simp [Product.setPrice, isNaN, toNumber, notAbove0, parseFloat, JSNumber.toFinite,
      hnot, Product.price, hp]
  · intro x hx
    exact setPrice_of_invalid p _ (Or.inr (by simp [toNumber, notAbove0, hx]))
  · exact setPrice_of_invalid p _ (Or.inl (by simp [isNaN, toNumber]))
  · exact setPrice_of_invalid p _ (Or.inl (by simp [isNaN, toNumber]))

/-- The setters on `kona`: the name "Kona Gold" and the price 12 are accepted
and read back; the name of three spaces and the price 0 raise and leave the
product as it was. -/
theorem setters_validate_example :
    kona.hasPrototype = true ∧
    (kona.setName (some "Kona Gold")).2.name = some "Kona Gold" ∧
    (kona.setPrice (.number (.finite 12))).2.price = some 12 ∧
    (kona.setName (some "   ")).2 = kona ∧
    (kona.setPrice (.number (.finite 0))).2 = kona :=
  ⟨rfl,
   (((setters_validate kona rfl).1 "Kona Gold" ⟨'K', by decide, by decide⟩).1).2,
   ((setters_validate kona rfl).2.2.2.1 12 (by norm_num)).2,
   congrArg Prod.snd (((setters_validate kona rfl).2.1 "   " (by decide)).1),
   congrArg Prod.snd ((setters_validate kona rfl).2.2.2.2.1 0 (le_refl 0))⟩

/-- C14 fails on the code for the price setter. `p.price = true` does not
raise: `isNaN(true)` is false and `true <= 0` is false (the numeric value of
`true` is 1), and `parseFloat(true)` is `NaN`, so the price of `kona`, 50
before, is no number afterwards. `p.price = "0x10"` does not raise either:
its numeric value is 16, and `parseFloat("0x10")` is 0, so the price 0 is
stored. The non-numeric string "abc" and the number -5 do raise and leave
the product as it was. -/
theorem setPrice_stores_invalid :
    kona.price = some 50 ∧
    toNumber (.boolean true) = .finite 1 ∧ parseFloat (.boolean true) = .nan ∧
    (kona.setPrice (.boolean true)).1 = .ok () ∧
    (kona.setPrice (.boolean true)).2.price = none ∧
    toNumber (.string "0x10") = .finite 16 ∧ parseFloat (.string "0x10") = .finite 0 ∧
    (kona.setPrice (.string "0x10")).1 = .ok () ∧
    (kona.setPrice (.string "0x10")).2.price = some 0 ∧
    kona.setPrice (.string "abc")
      = (.error ⟨"El precio debe ser un número positivo"⟩, kona) ∧
    kona.setPrice (.number (.finite (-5)))
      = (.error ⟨"El precio debe ser un número positivo"⟩, kona) := by
  refine ⟨rfl, rfl, rfl, rfl, rfl, ?_, ?_, ?_, ?_, rfl, rfl⟩
  · simp [toNumber, stringToNumber, trim, isTrimmed, wholeRadix, parseRadix, digitOfBase,
      natOfDigits]
  · rfl
  · rfl
  · rfl

/-! ## Catalog identifiers -/

/-- C15, as stated, fails: `createProduct` keeps the `uuid` that the record
carries, so a record with the identifier of `kona` puts a second product with
id "p1" into `sampleManager`, whose identifiers were pairwise distinct. -/
theorem createProduct_duplicates_id :
    (catalogIds sampleManager).Nodup ∧
    catalogIds (sampleManager.run [.createProduct sameIdRecord "fresh"])
      = ["p1", "p2", "p3", "p1"] ∧
    ¬ (catalogIds (sampleManager.run [.createProduct sameIdRecord "fresh"])).Nodup := by
  have h : catalogIds (sampleManager.run [.createProduct sameIdRecord "fresh"])
      = ["p1", "p2", "p3", "p1"] := rfl
  refine ⟨by decide, h, ?_⟩
  rw [h]
  decide

theorem createFromObject_uuid (u r : String) (hu : u ≠ "") (name description : Option String)
    (price : Option ℚ) (image category : Option String) :
    (Product.createFromObject (record (some u) name description price image category) r)._uuid
      = u := by
  simp [Product.createFromObject, record, truthyText, hu]

theorem uuid_eq_some (e : Product) (u : String) (h : e.uuid = some u) : e._uuid = u := by
  unfold Product.uuid at h
  split_ifs at h
  simpa using h

theorem updateProduct_ids (m : ProductManager) (u : String) (d : PlainObject) (r : String)
    (hu : u ≠ "") : catalogIds (m.updateProduct u d r).2 = catalogIds m := by
  by_cases h : hasProduct m u
  · obtain ⟨pre, e, post, hl, hpre, he⟩ := hasProduct_split m u h
    unfold catalogIds
    rw [(updateProduct_of_split m u d r pre post e hl hpre he).2.1, hl]
    simp [createFromObject_uuid u r hu, uuid_eq_some e u he]
  · rw [updateProduct_of_not_hasProduct m u d r h]

theorem step_catalogIds_nodup (m : ProductManager) (op : CatalogOp)
    (h : (catalogIds m).Nodup) (hop : bringsNoDuplicate m op) :
    (catalogIds (m.step op)).Nodup := by
  cases op with
  | createProduct d r =>
    simp only [ProductManager.step, catalogIds, (createProduct_eq m d r).2.1,
      List.map_append, List.map_cons, List.map_nil]
    rw [List.nodup_append]
    refine ⟨h, List.nodup_singleton _, ?_⟩
    intro x hx hx2
    rw [List.mem_singleton] at hx2
    subst hx2
    exact hop hx
  | updateProduct u d r =>
    by_cases hu : u = ""
    · by_cases hp : hasProduct m u
      · obtain ⟨pre, e, post, hl, hpre, he⟩ := hasProduct_split m u hp
        have hr : r ∉ catalogIds m := hop hu
        have hnew : (Product.createFromObject
            (record (some u) d.name d.description d.price d.image d.category) r)._uuid
            = r := by
          simp [Product.createFromObject, record, truthyText, hu]
        unfold catalogIds at h hr ⊢
        simp only [ProductManager.step,
          (updateProduct_of_split m u d r pre post e hl hpre he).2.1, List.map_append,
          List.map_cons, hnew]
        rw [hl] at h hr
        simp only [List.map_append, List.map_cons] at h hr
        rw [List.nodup_middle] at h ⊢
        rw [List.nodup_cons] at h ⊢
        refine ⟨?_, h.2⟩
        intro hmem
        apply hr
        rcases List.mem_append.mp hmem with hm | hm
        · exact List.mem_append_left _ hm
        · exact List.mem_append_right _ (List.mem_cons_of_mem _ hm)
      · simp only [ProductManager.step, updateProduct_of_not_hasProduct m u d r hp]
        exact h
    · simp only [ProductManager.step, updateProduct_ids m u d r hu]
      exact h
  | deleteProduct u =>
    simp only [ProductManager.step, catalogIds, deleteProduct_products]
    exact h.sublist (List.Sublist.map _ (List.filter_sublist _))

/-- C15, amended. Starting from a catalog whose identifiers are pairwise
distinct, after every finite sequence of `createProduct`, `updateProduct` and
`deleteProduct` calls in which no call brings an identifier that the catalog
already holds (a created product's identifier, own or generated, is new),
the identifiers are still pairwise distinct. The order is the insertion
order: `createProduct` appends at the end, `updateProduct` replaces in place
and `deleteProduct` keeps the other products in their order. -/
theorem run_catalogIds_nodup (m : ProductManager) (ops : List CatalogOp)
    (h : (catalogIds m).Nodup) (hops : noDuplicateRun m ops) :
    (catalogIds (m.run ops)).Nodup ∧
    (∀ d r, catalogIds (m.createProduct d r).2
      = catalogIds m ++ [(Product.createFromObject d r)._uuid]) ∧
    (∀ u d r, u ≠ "" → catalogIds (m.updateProduct u d r).2 = catalogIds m) ∧
    (∀ u, (m.deleteProduct u).2._products.Sublist m._products) := by
  refine ⟨?_, ?_, fun u d r hu => updateProduct_ids m u d r hu, ?_⟩
  · induction ops generalizing m with
    | nil => simpa [ProductManager.run] using h
    | cons op rest ih =>
      have := ih (m.step op) (step_catalogIds_nodup m op h hops.1) hops.2
      simpa [ProductManager.run] using this
  · intro d r
    simp [catalogIds, (createProduct_eq m d r).2.1]
  · intro u
    rw [deleteProduct_products]
    exact List.filter_sublist _

/-- Witness for the amended C15 on `sampleManager`: creating a product from a
record without `uuid` (generated id "fresh"), updating "p2" and deleting "p1"
keeps the identifiers distinct. -/
theorem run_catalogIds_nodup_witness :
    (catalogIds sampleManager).Nodup ∧
    noDuplicateRun sampleManager
      [.createProduct invalidRecord "fresh", .updateProduct "p2" priceOnly "r",
       .deleteProduct "p1"] ∧
    (catalogIds (sampleManager.run
      [.createProduct invalidRecord "fresh", .updateProduct "p2" priceOnly "r",
       .deleteProduct "p1"])).Nodup := by
  have hrun : noDuplicateRun sampleManager
      [.createProduct invalidRecord "fresh", .updateProduct "p2" priceOnly "r",
       .deleteProduct "p1"] := by
    refine ⟨?_, ?_, trivial, trivial⟩
    · show "fresh" ∉ ["p1", "p2", "p3"]
      decide
    · intro h
      exact absurd h (by decide)
  exact ⟨by decide, hrun, (run_catalogIds_nodup sampleManager _ (by decide) hrun).1⟩

/-- The forced `uuid` does not always keep the identifier, against the comment
at script.js 283: for a product whose identifier is the empty string the
forced `uuid` is falsy in `createFromObject`, which then takes the generated
identifier. -/
theorem updateProduct_empty_uuid_changes_id :
    ((⟨[emptyIdProduct], ⟨[]⟩⟩ : ProductManager).updateProduct ""
        (record none (some "X") none none none none) "r").1
      = .ok ⟨true, "r", some "X", none, none, none, none⟩ ∧
    catalogIds ((⟨[emptyIdProduct], ⟨[]⟩⟩ : ProductManager).updateProduct ""
        (record none (some "X") none none none none) "r").2 = ["r"] :=
  ⟨rfl, rfl⟩

end MockWebpage
